import Mathlib

/-!
Verification of the go-json-schema repository (a JSON Schema Draft-07 subset
validator) against its natural-language specification.

This file shallowly embeds the parts of the Go source that the claims under
scrutiny are about:

* the JSON value model (`Json` and friends);
* the `jsonwalker` JSON-Pointer evaluator (`NewJsonPointer`,
  `JsonPointer.Evaluate`, `evaluateToken` from the unnamed jsonwalker file);
* the `formatchecker` predicates `IsValidJSONPointer` and
  `IsValidRelJSONPointer`;
* the schema node type (`JsonSchema`) restricted to the keyword subset the
  claims mention, its keyword validators, the validation driver
  `validateJsonData` (jsonschema.go) and the reference resolver
  `validateByRef` (keywordvalidator.go);
* the root-schema registry operations of rootjsonschema.go
  (`newRootRegister`), and the subschema-index construction performed by
  `scanSchema` / `mapSubSchema` (jsonschema.go).

Modelling conventions:

* Go byte strings holding JSON are identified with their decoded `Json`
  value: `json.Unmarshal` always succeeds in the model and `json.Marshal`
  is the identity.  All instances appearing in the claims are well-formed
  JSON, so nothing is lost.
* JSON numbers (Go `float64`) are modelled as exact rationals `num n d`
  (value n/d, with d positive in every literal used).  Every number in the
  claims (0, 1, 1.5, 42, ...) is exactly representable in `float64`, so the
  rational model agrees with the Go semantics on them.  The Draft-07
  `integer` test `value == float64(int(value))` becomes divisibility of n
  by d.
* Go panics (nil-pointer dereference, out-of-range indexing and slicing)
  are modelled by an explicit `crash` result that propagates.
* The process-wide mutable `rootSchemaPool` is threaded as an explicit
  association-list argument.
* Recursion through `$ref` need not terminate in the source, so the
  validation driver carries explicit fuel; fuel exhaustion yields `crash`
  (the model of nontermination).  All other functions are structural.
* Go `strconv.Atoi` is modelled for sign-plus-digit strings; the 64-bit
  overflow failure of `Atoi` on huge literals is not modelled (no claim
  involves a number of more than a few digits).
* Go map iteration order is unspecified; maps are modelled as association
  lists in source order.  Iteration order only influences which error is
  reported first, never acceptance.
-/

/-! ## JSON values -/

mutual
inductive Json : Type where
  | null : Json
  | bool (b : Bool) : Json
  | num (n : Int) (d : Nat) : Json
  | str (s : String) : Json
  | arr (items : JsonList) : Json
  | obj (fields : JsonObj) : Json
  deriving DecidableEq, Repr
inductive JsonList : Type where
  | nil : JsonList
  | cons (v : Json) (rest : JsonList) : JsonList
  deriving DecidableEq, Repr
inductive JsonObj : Type where
  | nil : JsonObj
  | cons (k : String) (v : Json) (rest : JsonObj) : JsonObj
  deriving DecidableEq, Repr
end

/-- Build a `JsonList` from a Lean list (literal convenience only). -/
def JsonList.ofList : List Json → JsonList
  | [] => .nil
  | v :: rest => .cons v (JsonList.ofList rest)

/-- Build a `JsonObj` from a Lean list (literal convenience only). -/
def JsonObj.ofList : List (String × Json) → JsonObj
  | [] => .nil
  | (k, v) :: rest => .cons k v (JsonObj.ofList rest)

/-- Number of elements, Go `len` of a decoded JSON array. -/
def JsonList.length : JsonList → Nat
  | .nil => 0
  | .cons _ rest => 1 + rest.length

/-- Number of keys, Go `len` of a decoded JSON object. -/
def JsonObj.length : JsonObj → Nat
  | .nil => 0
  | .cons _ _ rest => 1 + rest.length

/-- Go `v[token]` comma-ok lookup on a decoded JSON object. -/
def JsonObj.find : JsonObj → String → Option Json
  | .nil, _ => none
  | .cons k v rest, key => if k = key then some v else rest.find key

/-- Zero-based element access on a decoded JSON array. -/
def JsonList.get? : JsonList → Nat → Option Json
  | .nil, _ => none
  | .cons v _, 0 => some v
  | .cons _ rest, n + 1 => rest.get? n

/-- Go type switch arm `string`. -/
def Json.isStr : Json → Bool
  | .str _ => true
  | _ => false

/-- Go type switch arm `float64`. -/
def Json.isNum : Json → Bool
  | .num _ _ => true
  | _ => false

/-- Go type switch arm `map[string]interface\x7b\x7d`. -/
def Json.isObj : Json → Bool
  | .obj _ => true
  | _ => false

/-- Go type switch arm `[]interface\x7b\x7d`. -/
def Json.isArr : Json → Bool
  | .arr _ => true
  | _ => false

/-! ## Go string primitives -/

/-- Go `strings.Split` with a one-character separator, on character lists.
Never returns an empty list. -/
def splitChar (c : Char) : List Char → List (List Char)
  | [] => [[]]
  | x :: xs =>
    if x = c then [] :: splitChar c xs
    else
      match splitChar c xs with
      | [] => [[x]]
      | h :: t => (x :: h) :: t

/-- Go `strings.Split(s, sep)` for a one-character separator. -/
def goSplit (s : String) (c : Char) : List String :=
  (splitChar c s.toList).map String.mk

/-- Decimal digits to a natural number; `none` on an empty or non-digit
input.  Helper for the `strconv.Atoi` model. -/
def digitsToNat : List Char → Option Nat
  | [] => none
  | l => go l 0
where
  go : List Char → Nat → Option Nat
    | [], acc => some acc
    | c :: rest, acc =>
      if '0' ≤ c ∧ c ≤ '9' then go rest (acc * 10 + (c.toNat - '0'.toNat))
      else none

/-- Go `strconv.Atoi`: optional sign followed by decimal digits.
The 64-bit overflow error on huge inputs is not modelled. -/
def goAtoi (s : String) : Option Int :=
  match s.toList with
  | [] => none
  | c :: rest =>
    if c = '-' then (digitsToNat rest).map (fun n => -(n : Int))
    else if c = '+' then (digitsToNat rest).map (fun n => (n : Int))
    else (digitsToNat (c :: rest)).map (fun n => (n : Int))

/-- Go `tokens[len(tokens)-1]` on a never-empty slice. -/
def lastToken (l : List String) : String :=
  l.getLastD ""

/-! ## jsonwalker: JSON-Pointer evaluation (unnamed part_000, second file) -/

/-- Outcome of `evaluateToken`: a value, a Go error, or a Go panic.
`errMissing` is `MissingJsonTokenError`; `errAtoi` is the error returned by
`strconv.Atoi`; `crash` is the out-of-range panic of `v[index]`. -/
inductive TokOut : Type where
  | ok (v : Json) : TokOut
  | errMissing (tok : String) : TokOut
  | errAtoi (tok : String) : TokOut
  | crash : TokOut
  deriving DecidableEq, Repr

/-- `evaluateToken` (jsonwalker): object lookup by exact key, array access
through `strconv.Atoi` with Go's unchecked `v[index]`, and
`MissingJsonTokenError` for atomic values. -/
def evaluateToken (token : String) (jsonData : Json) : TokOut :=
  match jsonData with
  | .obj v =>
    match v.find token with
    | some prop => .ok prop
    | none => .errMissing token
  | .arr v =>
    match goAtoi token with
    | none => .errAtoi token
    | some index =>
      if 0 ≤ index ∧ index.toNat < v.length then
        match v.get? index.toNat with
        | some e => .ok e
        | none => .crash
      else .crash
  | _ => .errMissing token

/-- Outcome of `JsonPointer.Evaluate`: the designated value, an
`InvalidJsonPointerError` carrying the full original pointer and a reason,
or a panic. -/
inductive EvalOut : Type where
  | ok (v : Json) : EvalOut
  | err (ptr : String) (reason : String) : EvalOut
  | crash : EvalOut
  deriving DecidableEq, Repr

/-- The `Error()` rendering of the two token-level errors, used as the
reason inside `InvalidJsonPointerError`. -/
def tokErrMessage : TokOut → String
  | .errMissing tok => "token \"" ++ tok ++ "\" is missing"
  | .errAtoi tok => "strconv.Atoi: parsing \"" ++ tok ++ "\": invalid syntax"
  | _ => ""

/-- A `JsonPointer` is a list of tokens (jsonwalker). -/
def JsonPointer := List String

/-- `NewJsonPointer` (jsonwalker): empty or "/" is the whole-document
pointer; a non-empty path must start with '/'; split on '/' and drop the
leading empty token. -/
def NewJsonPointer (path : String) : Except String JsonPointer :=
  if path.length = 0 ∨ path = "/" then .ok []
  else if path.toList.headD ' ' ≠ '/' then
    .error "first character of non-empty reference must be the slash"
  else .ok ((goSplit path '/').drop 1)

/-- `JsonPointer.Evaluate` (jsonwalker): apply each token in order; a token
error is wrapped into `InvalidJsonPointerError` with the full joined
pointer; the panic of `evaluateToken` propagates. -/
def JsonPointer.Evaluate (jp : JsonPointer) (jsonData : Json) : EvalOut :=
  match jp with
  | [] => .ok jsonData
  | _ :: _ => go jp jsonData
where
  fullPath (jp : JsonPointer) : String :=
    "/" ++ String.intercalate "/" jp
  go : List String → Json → EvalOut
    | [], data => .ok data
    | token :: rest, data =>
      match evaluateToken token data with
      | .ok v => go rest v
      | .crash => .crash
      | e => .err (fullPath jp) (tokErrMessage e)

/-! ## formatchecker: json-pointer and relative-json-pointer -/

/-- The regex `\~[^01]` of `IsValidJSONPointer`: some '~' is followed by a
character other than '0' or '1'. -/
def hasUnescapedTilde : List Char → Bool
  | [] => false
  | '~' :: c :: rest =>
    if c ≠ '0' ∧ c ≠ '1' then true else hasUnescapedTilde (c :: rest)
  | _ :: rest => hasUnescapedTilde rest

/-- The regex `\~$` of `IsValidJSONPointer`: the string ends with '~'. -/
def endsWithTilde (l : List Char) : Bool :=
  match l.getLast? with
  | some '~' => true
  | _ => false

/-- `IsValidJSONPointer` (formatchecker): `true` means the nil error was
returned (the string was accepted). -/
def IsValidJSONPointer (jsonPointer : String) : Bool :=
  if jsonPointer.length = 0 then true
  else if jsonPointer.toList.headD ' ' ≠ '/' then false
  else
    let str := jsonPointer.toList.drop 1
    if hasUnescapedTilde str then false
    else if endsWithTilde str then false
    else true

/-- `IsValidRelJSONPointer` (formatchecker): `true` means the nil error was
returned (the string was accepted).  Faithfully models the source, in which
the branch `err != nil || i < 0` returns `err` — the nil error when the
prefix parsed to a negative integer. -/
def IsValidRelJSONPointer (relJSONPointer : String) : Bool :=
  let parts := goSplit relJSONPointer '/'
  let parts := if parts.length = 1 then goSplit relJSONPointer '#' else parts
  let p0 := parts.headD ""
  match goAtoi p0 with
  | none => false
  | some i =>
    if i < 0 then true
    else
      let str := String.mk (relJSONPointer.toList.drop p0.toList.length)
      if str.length > 0 ∧ str.toList.headD ' ' = '#' then true
      else IsValidJSONPointer str

/-! ## Schema nodes (jsonschema.go `JsonSchema`)

The node carries every keyword that participates in compilation walking or
in one of the claims, in Go struct field order.  The Go fields `Not`, `If`,
`Then`, `Else` (whose keyword types are `not`, `_if`, `_then`, `_else`) are
named `notKw`, `ifKw`, `thenKw`, `elseKw` here because `if`/`then`/`else`
are Lean keywords.  Annotation-only fields and the remaining scalar
keywords (maxItems, maxLength, pattern, format, multipleOf, maximum,
exclusive bounds, maxProperties, enum, const, required, uniqueItems) carry
no subschemas and appear in no claim, so they are omitted; `dependencies`
entries are either a subschema or an array of property names, as in the
source. -/

mutual
inductive JsonSchema : Type where
  | mk (rejectAll : Bool)
       (ref : Option String)
       (id : Option String)
       (typ : Option Json)
       (definitions : SProps)
       (properties : OptProps)
       (additionalProperties : OptSchema)
       (propertyNames : OptSchema)
       (dependencies : Deps)
       (patternProperties : OptProps)
       (items : ItemsField)
       (contains : OptSchema)
       (additionalItems : OptSchema)
       (minItems : Option Int)
       (minLength : Option Int)
       (minimum : Option (Int × Nat))
       (minProperties : Option Int)
       (anyOf : OptSList)
       (allOf : OptSList)
       (oneOf : OptSList)
       (notKw : OptSchema)
       (ifKw : OptSchema)
       (thenKw : OptSchema)
       (elseKw : OptSchema) : JsonSchema
  deriving DecidableEq, Repr
inductive OptSchema : Type where
  | none : OptSchema
  | some (s : JsonSchema) : OptSchema
  deriving DecidableEq, Repr
inductive ItemsField : Type where
  | none : ItemsField
  | single (s : JsonSchema) : ItemsField
  | list (l : SList) : ItemsField
  deriving DecidableEq, Repr
inductive OptProps : Type where
  | none : OptProps
  | some (p : SProps) : OptProps
  deriving DecidableEq, Repr
inductive OptSList : Type where
  | none : OptSList
  | some (l : SList) : OptSList
  deriving DecidableEq, Repr
inductive SProps : Type where
  | nil : SProps
  | cons (k : String) (s : JsonSchema) (rest : SProps) : SProps
  deriving DecidableEq, Repr
inductive SList : Type where
  | nil : SList
  | cons (s : JsonSchema) (rest : SList) : SList
  deriving DecidableEq, Repr
inductive Deps : Type where
  | nil : Deps
  | schemaDep (k : String) (s : JsonSchema) (rest : Deps) : Deps
  | namesDep (k : String) (names : List String) (rest : Deps) : Deps
  deriving DecidableEq, Repr
end

def JsonSchema.rejectAll : JsonSchema → Bool
  | .mk v _ _ _ _ _ _ _ _ _ _ _ _ _ _ _ _ _ _ _ _ _ _ _ => v

def JsonSchema.ref : JsonSchema → Option String
  | .mk _ v _ _ _ _ _ _ _ _ _ _ _ _ _ _ _ _ _ _ _ _ _ _ => v

def JsonSchema.id : JsonSchema → Option String
  | .mk _ _ v _ _ _ _ _ _ _ _ _ _ _ _ _ _ _ _ _ _ _ _ _ => v

def JsonSchema.typ : JsonSchema → Option Json
  | .mk _ _ _ v _ _ _ _ _ _ _ _ _ _ _ _ _ _ _ _ _ _ _ _ => v

def JsonSchema.definitions : JsonSchema → SProps
  | .mk _ _ _ _ v _ _ _ _ _ _ _ _ _ _ _ _ _ _ _ _ _ _ _ => v

def JsonSchema.properties : JsonSchema → OptProps
  | .mk _ _ _ _ _ v _ _ _ _ _ _ _ _ _ _ _ _ _ _ _ _ _ _ => v

def JsonSchema.additionalProperties : JsonSchema → OptSchema
  | .mk _ _ _ _ _ _ v _ _ _ _ _ _ _ _ _ _ _ _ _ _ _ _ _ => v

def JsonSchema.propertyNames : JsonSchema → OptSchema
  | .mk _ _ _ _ _ _ _ v _ _ _ _ _ _ _ _ _ _ _ _ _ _ _ _ => v

def JsonSchema.dependencies : JsonSchema → Deps
  | .mk _ _ _ _ _ _ _ _ v _ _ _ _ _ _ _ _ _ _ _ _ _ _ _ => v

def JsonSchema.patternProperties : JsonSchema → OptProps
  | .mk _ _ _ _ _ _ _ _ _ v _ _ _ _ _ _ _ _ _ _ _ _ _ _ => v

def JsonSchema.items : JsonSchema → ItemsField
  | .mk _ _ _ _ _ _ _ _ _ _ v _ _ _ _ _ _ _ _ _ _ _ _ _ => v

def JsonSchema.contains : JsonSchema → OptSchema
  | .mk _ _ _ _ _ _ _ _ _ _ _ v _ _ _ _ _ _ _ _ _ _ _ _ => v

def JsonSchema.additionalItems : JsonSchema → OptSchema
  | .mk _ _ _ _ _ _ _ _ _ _ _ _ v _ _ _ _ _ _ _ _ _ _ _ => v

def JsonSchema.minItems : JsonSchema → Option Int
  | .mk _ _ _ _ _ _ _ _ _ _ _ _ _ v _ _ _ _ _ _ _ _ _ _ => v

def JsonSchema.minLength : JsonSchema → Option Int
  | .mk _ _ _ _ _ _ _ _ _ _ _ _ _ _ v _ _ _ _ _ _ _ _ _ => v

def JsonSchema.minimum : JsonSchema → Option (Int × Nat)
  | .mk _ _ _ _ _ _ _ _ _ _ _ _ _ _ _ v _ _ _ _ _ _ _ _ => v

def JsonSchema.minProperties : JsonSchema → Option Int
  | .mk _ _ _ _ _ _ _ _ _ _ _ _ _ _ _ _ v _ _ _ _ _ _ _ => v

def JsonSchema.anyOf : JsonSchema → OptSList
  | .mk _ _ _ _ _ _ _ _ _ _ _ _ _ _ _ _ _ v _ _ _ _ _ _ => v

def JsonSchema.allOf : JsonSchema → OptSList
  | .mk _ _ _ _ _ _ _ _ _ _ _ _ _ _ _ _ _ _ v _ _ _ _ _ => v

def JsonSchema.oneOf : JsonSchema → OptSList
  | .mk _ _ _ _ _ _ _ _ _ _ _ _ _ _ _ _ _ _ _ v _ _ _ _ => v

def JsonSchema.notKw : JsonSchema → OptSchema
  | .mk _ _ _ _ _ _ _ _ _ _ _ _ _ _ _ _ _ _ _ _ v _ _ _ => v

def JsonSchema.ifKw : JsonSchema → OptSchema
  | .mk _ _ _ _ _ _ _ _ _ _ _ _ _ _ _ _ _ _ _ _ _ v _ _ => v

def JsonSchema.thenKw : JsonSchema → OptSchema
  | .mk _ _ _ _ _ _ _ _ _ _ _ _ _ _ _ _ _ _ _ _ _ _ v _ => v

def JsonSchema.elseKw : JsonSchema → OptSchema
  | .mk _ _ _ _ _ _ _ _ _ _ _ _ _ _ _ _ _ _ _ _ _ _ _ v => v

/-- Length of a schema list, Go `len`. -/
def SList.length : SList → Nat
  | .nil => 0
  | .cons _ rest => 1 + rest.length

/-- Build an `SList` from a Lean list (literal convenience only). -/
def SList.ofList : List JsonSchema → SList
  | [] => .nil
  | s :: rest => .cons s (SList.ofList rest)

/-- Build an `SProps` from a Lean list (literal convenience only). -/
def SProps.ofList : List (String × JsonSchema) → SProps
  | [] => .nil
  | (k, s) :: rest => .cons k s (SProps.ofList rest)

/-- The schema with every field at its Go zero value: the compilation of
the JSON schema document `\x7b\x7d` (and, via `UnmarshalJSON`, of `true`). -/
def emptyJsonSchema : JsonSchema :=
  .mk false .none .none .none .nil .none
    .none .none .nil .none .none .none
    .none .none .none .none .none .none
    .none .none .none .none .none .none

/-- The compilation of the JSON schema document `false`
(`UnmarshalJSON` decodes it as `\x7b"rejectAll": true\x7d`). -/
def rejectAllJsonSchema : JsonSchema :=
  .mk true .none .none .none .nil .none
    .none .none .nil .none .none .none
    .none .none .none .none .none .none
    .none .none .none .none .none .none

/-- `JsonSchema.UnmarshalJSON` on a JSON boolean at schema position:
`true` becomes the empty (always accepting) node, `false` the `rejectAll`
node. -/
def compileBoolSchema (b : Bool) : JsonSchema :=
  if b then emptyJsonSchema else rejectAllJsonSchema

/-- A schema carrying only a `type` assertion with a single type name. -/
def typeOnlySchema (t : String) : JsonSchema :=
  .mk false .none .none (Option.some (.str t)) .nil .none
    .none .none .nil .none .none .none
    .none .none .none .none .none .none
    .none .none .none .none .none .none

/-- A schema carrying only a `$ref`. -/
def refOnlySchema (r : String) : JsonSchema :=
  .mk false (Option.some r) .none .none .nil .none
    .none .none .nil .none .none .none
    .none .none .none .none .none .none
    .none .none .none .none .none .none

/-! ## Errors (errors.go) and validation outcomes -/

/-- The error kinds crossing the validation boundary: `KeywordValidationError`,
`SchemaValidationError`, `InvalidReferenceError`, and the wrapped JSON-Pointer
errors surfaced by `validateJsonData`. -/
inductive VError : Type where
  | keywordErr (keyword : String) (reason : String) : VError
  | schemaErr (path : String) (reason : String) : VError
  | refErr (schemaURI : String) (fragment : String) (reason : String) : VError
  | ptrErr (ptr : String) (reason : String) : VError
  deriving DecidableEq, Repr

/-- Outcome of a validation step: success (Go nil error), failure with an
error value, or a Go panic. -/
inductive VOut : Type where
  | ok : VOut
  | fail (e : VError) : VOut
  | crash : VOut
  deriving DecidableEq, Repr

/-- The `Error()` rendering of each error kind (errors.go). -/
def errorMessage : VError → String
  | .keywordErr kw reason =>
    "\"" ++ kw ++ "\" validation failed, reason: " ++ reason
  | .schemaErr path reason =>
    "validation failed in path " ++ (if path = "" then "/" else path) ++ ": " ++ reason
  | .refErr uri frag reason =>
    reason ++ ": schema id - " ++ uri ++ ", fragment - " ++ (if frag = "" then "/" else frag)
  | .ptrErr ptr reason =>
    "invalid json pointer \"" ++ ptr ++ "\": " ++ reason

/-! ## Root schemas and the registry (rootjsonschema.go) -/

/-- `RootJsonSchema`: an embedded schema node plus the subschema index. -/
structure RootJsonSchema : Type where
  schema : JsonSchema
  subSchemaMap : List (String × JsonSchema)
  deriving DecidableEq, Repr

/-- The process-wide `rootSchemaPool`, threaded explicitly. -/
abbrev Pool : Type := List (String × RootJsonSchema)

/-- Go map lookup on the pool. -/
def poolFind : Pool → String → Option RootJsonSchema
  | [], _ => none
  | (k, v) :: rest, key => if k = key then some v else poolFind rest key

/-- Go map lookup on a subschema index. -/
def indexFind : List (String × JsonSchema) → String → Option JsonSchema
  | [], _ => none
  | (k, v) :: rest, key => if k = key then some v else indexFind rest key

/-- The registration step of `NewRootJsonSchema` (rootjsonschema.go lines
38-47): the id is the root's `$id` or `""`, and the root is added to the
pool only when no entry with that id exists yet. -/
def newRootRegister (pool : Pool) (rootSchema : RootJsonSchema) : Pool :=
  let rootSchemaId := match rootSchema.schema.id with
    | some i => i
    | none => ""
  match poolFind pool rootSchemaId with
  | some _ => pool
  | none => (rootSchemaId, rootSchema) :: pool

/-! ## Keyword validators (keywordvalidator.go) -/

/-- The type of the recursive validation callback
(`JsonSchema.validateJsonData` partially applied): schema, json path, raw
data, root schema id. -/
def Recur : Type := JsonSchema → String → Json → String → VOut

/-- `assertJsonType` (keywordvalidator.go): the "json type assertion" of a
single type name against a decoded value.  `integer` matches a number whose
value survives the round trip `value == float64(int(value))`, i.e. whose
denominator divides its numerator. -/
def assertJsonType (jsonType : String) (jsonData : Json) : VOut :=
  if jsonType = "object" then
    match jsonData with
    | .obj _ => .ok
    | _ => .fail (.keywordErr "type" "inspected value expected to be a json object")
  else if jsonType = "array" then
    match jsonData with
    | .arr _ => .ok
    | _ => .fail (.keywordErr "type" "inspected value expected to be a json array")
  else if jsonType = "string" then
    match jsonData with
    | .str _ => .ok
    | _ => .fail (.keywordErr "type" "inspected value expected to be a json string")
  else if jsonType = "integer" then
    match jsonData with
    | .num n d => if (d : Int) ∣ n then .ok
        else .fail (.keywordErr "type" "inspected value expected to be a json integer")
    | _ => .fail (.keywordErr "type" "inspected value expected to be a json integer")
  else if jsonType = "number" then
    match jsonData with
    | .num _ _ => .ok
    | _ => .fail (.keywordErr "type" "inspected value expected to be a json number")
  else if jsonType = "boolean" then
    match jsonData with
    | .bool _ => .ok
    | _ => .fail (.keywordErr "type" "inspected value expected to be a json boolean")
  else if jsonType = "null" then
    match jsonData with
    | .null => .ok
    | _ => .fail (.keywordErr "type" "inspected value expected to be a json null")
  else .fail (.keywordErr "type" ("invalid json type " ++ jsonType))

/-- The loop of `_type.validate` over an array-valued `type` field. -/
def typeListLoop (jsonData : Json) : JsonList → VOut
  | .nil =>
    .fail (.keywordErr "type" "inspected value does not match any of the valid types in the schema")
  | .cons t rest =>
    match t with
    | .str v =>
      match assertJsonType v jsonData with
      | .ok => .ok
      | _ => typeListLoop jsonData rest
    | _ =>
      .fail (.keywordErr "type" "\"type\" field in schema must be string or array of strings")

/-- `_type.validate` (keywordvalidator.go): the raw `type` value is either
a single name, an array of names, or malformed. -/
def typeValidate (t : Json) (jsonPath : String) (jsonData : Json) (rootSchemaId : String) : VOut :=
  match t with
  | .arr l => typeListLoop jsonData l
  | .str s => assertJsonType s jsonData
  | _ => .fail (.keywordErr "type" "\"type\" field in schema must be string or array of strings")

/-- `minLength.validate` (keywordvalidator.go): byte length of the string;
vacuous success on every non-string instance. -/
def minLengthValidate (ml : Int) (jsonPath : String) (jsonData : Json) (rootSchemaId : String) : VOut :=
  match jsonData with
  | .str v =>
    if (v.utf8ByteSize : Int) ≥ ml then .ok
    else .fail (.keywordErr "minLength" ("inspected string is less than " ++ toString ml))
  | _ => .ok

/-- `minimum.validate` (keywordvalidator.go): the bound is the rational
m.1/m.2; vacuous success on every non-number instance. -/
def minimumValidate (m : Int × Nat) (jsonPath : String) (jsonData : Json) (rootSchemaId : String) : VOut :=
  match jsonData with
  | .num n d =>
    if n * (m.2 : Int) ≥ m.1 * (d : Int) then .ok
    else .fail (.keywordErr "minimum" "inspected value is less than the minimum")
  | _ => .ok

/-- `minProperties.validate` (keywordvalidator.go): counts mapping entries;
vacuous success on every non-object instance. -/
def minPropertiesValidate (mp : Int) (jsonPath : String) (jsonData : Json) (rootSchemaId : String) : VOut :=
  match jsonData with
  | .obj v =>
    if (v.length : Int) ≥ mp then .ok
    else .fail (.keywordErr "minProperties"
      ("inspected value must contains at least " ++ toString mp ++ " properties"))
  | _ => .ok

/-- `minItems.validate` (keywordvalidator.go): counts array elements;
vacuous success on every non-array instance. -/
def minItemsValidate (mi : Int) (jsonPath : String) (jsonData : Json) (rootSchemaId : String) : VOut :=
  match jsonData with
  | .arr v =>
    if (v.length : Int) ≥ mi then .ok
    else .fail (.keywordErr "minItems"
      ("inspected array must contain at least " ++ toString mi ++ " items"))
  | _ => .ok

/-- The loop of `properties.validate`: for each schema key present in the
instance object, validate the child value; child errors are returned
unchanged. -/
def propsLoop (recur : Recur) (object : JsonObj) (jsonPath : String) (jsonData : Json)
    (rootSchemaId : String) : SProps → VOut
  | .nil => .ok
  | .cons key value rest =>
    match object.find key with
    | Option.some _ =>
      match recur value (jsonPath ++ "/" ++ key) jsonData rootSchemaId with
      | .ok => propsLoop recur object jsonPath jsonData rootSchemaId rest
      | e => e
    | Option.none => propsLoop recur object jsonPath jsonData rootSchemaId rest

/-- `properties.validate` (keywordvalidator.go). -/
def propertiesValidate (recur : Recur) (p : SProps) (jsonPath : String) (jsonData : Json)
    (rootSchemaId : String) : VOut :=
  match jsonData with
  | .obj object => propsLoop recur object jsonPath jsonData rootSchemaId p
  | _ => .ok

/-- The loop of `propertyNames.validate`: every property NAME, as a JSON
string, against the schema, at the empty relative path. -/
def propNamesLoop (recur : Recur) (pn : JsonSchema) (rootSchemaId : String) : JsonObj → VOut
  | .nil => .ok
  | .cons property _ rest =>
    match recur pn "" (Json.str property) rootSchemaId with
    | .ok => propNamesLoop recur pn rootSchemaId rest
    | .crash => .crash
    | .fail e =>
      .fail (.keywordErr "propertyNames"
        ("property name \"" ++ property ++ "\" failed in validation: " ++ errorMessage e))

/-- `propertyNames.validate` (keywordvalidator.go): vacuous success on
non-objects. -/
def propertyNamesValidate (recur : Recur) (pn : JsonSchema) (jsonPath : String)
    (jsonData : Json) (rootSchemaId : String) : VOut :=
  match jsonData with
  | .obj object => propNamesLoop recur pn rootSchemaId object
  | _ => .ok

/-- The array-valued dependency check of `dependencies.validate`: every
listed name must be present.  As in the source, the presence of the
trigger key itself is NOT checked in this branch. -/
def depNamesLoop (object : JsonObj) (propertyName : String) : List String → VOut
  | [] => .ok
  | requiredProperty :: rest =>
    match object.find requiredProperty with
    | Option.some _ => depNamesLoop object propertyName rest
    | Option.none =>
      .fail (.keywordErr "dependencies"
        ("missing property \"" ++ requiredProperty ++
         "\" although it is required according to \"" ++ propertyName ++ "\" dependency"))

/-- The entry loop of `dependencies.validate`: a schema-valued dependency
validates the whole instance when its trigger key is present. -/
def depsLoop (recur : Recur) (object : JsonObj) (jsonData : Json) (rootSchemaId : String) :
    Deps → VOut
  | .nil => .ok
  | .schemaDep propertyName v rest =>
    match object.find propertyName with
    | Option.some _ =>
      match recur v "" jsonData rootSchemaId with
      | .ok => depsLoop recur object jsonData rootSchemaId rest
      | .crash => .crash
      | .fail e =>
        .fail (.keywordErr "dependencies"
          ("inspected value failed in validation against sub-schema given in \"" ++
           propertyName ++ "\" dependency: " ++ errorMessage e))
    | Option.none => depsLoop recur object jsonData rootSchemaId rest
  | .namesDep propertyName names rest =>
    match depNamesLoop object propertyName names with
    | .ok => depsLoop recur object jsonData rootSchemaId rest
    | e => e

/-- `dependencies.validate` (keywordvalidator.go): vacuous success on
non-objects. -/
def dependenciesValidate (recur : Recur) (d : Deps) (jsonPath : String) (jsonData : Json)
    (rootSchemaId : String) : VOut :=
  match jsonData with
  | .obj object => depsLoop recur object jsonData rootSchemaId d
  | _ => .ok

/-- The single-schema loop of `items.validate`: every element index against
the same schema. -/
def itemsSingleLoop (recur : Recur) (schema : JsonSchema) (jsonPath : String) (jsonData : Json)
    (rootSchemaId : String) (index : Nat) : JsonList → VOut
  | .nil => .ok
  | .cons _ rest =>
    match recur schema (jsonPath ++ "/" ++ toString index) jsonData rootSchemaId with
    | .ok => itemsSingleLoop recur schema jsonPath jsonData rootSchemaId (index + 1) rest
    | e => e

/-- The array-of-schemas loop of `items.validate`: element at index i
against schemas[i]. -/
def itemsListLoop (recur : Recur) (jsonPath : String) (jsonData : Json)
    (rootSchemaId : String) (index : Nat) : SList → VOut
  | .nil => .ok
  | .cons schema rest =>
    match recur schema (jsonPath ++ "/" ++ toString index) jsonData rootSchemaId with
    | .ok => itemsListLoop recur jsonPath jsonData rootSchemaId (index + 1) rest
    | e => e

/-- `items.validate` (keywordvalidator.go): single schema applies to every
element; an array of schemas applies positionally and additionally requires
the instance array to be at least as long; vacuous success on non-arrays. -/
def itemsValidate (recur : Recur) (i : ItemsField) (jsonPath : String) (jsonData : Json)
    (rootSchemaId : String) : VOut :=
  match jsonData with
  | .arr array =>
    match i with
    | .none => .ok
    | .single schema => itemsSingleLoop recur schema jsonPath jsonData rootSchemaId 0 array
    | .list itemsField =>
      if itemsField.length > array.length then
        .fail (.keywordErr "items"
          ("when \"items\" field contains a list of Json Schema objects, the " ++
           "inspected array must contain at least the same amount of items"))
      else itemsListLoop recur jsonPath jsonData rootSchemaId 0 itemsField
  | _ => .ok

/-- The loop of `additionalItems.validate`.  In the source,
`for index := range array[len(itemsArray):]` ranges over the suffix slice,
so `index` runs from 0 to len(array)-len(itemsArray)-1 — these are the
indices actually passed to the recursive validation. -/
def addItemsLoop (recur : Recur) (ai : JsonSchema) (jsonPath : String) (jsonData : Json)
    (rootSchemaId : String) (index : Nat) : Nat → VOut
  | 0 => .ok
  | remaining + 1 =>
    match recur ai (jsonPath ++ "/" ++ toString index) jsonData rootSchemaId with
    | .ok => addItemsLoop recur ai jsonPath jsonData rootSchemaId (index + 1) remaining
    | .crash => .crash
    | .fail e =>
      .fail (.keywordErr "additionalItems"
        ("item at position " ++ toString index ++ " failed in validation: " ++ errorMessage e))

/-- `additionalItems.validate` (keywordvalidator.go).  A nil `siblingItems`
pointer is dereferenced unconditionally (crash); when the sibling `items`
is an array of schemas, Go slices `array[len(itemsArray):]` (a panic when
the instance array is shorter) and iterates `range` indices from 0. -/
def additionalItemsValidate (recur : Recur) (ai : JsonSchema) (siblingItems : ItemsField)
    (jsonPath : String) (jsonData : Json) (rootSchemaId : String) : VOut :=
  match siblingItems with
  | .none => .crash
  | .single _ => .ok
  | .list itemsArray =>
    match jsonData with
    | .arr array =>
      if itemsArray.length > array.length then .crash
      else addItemsLoop recur ai jsonPath jsonData rootSchemaId 0
        (array.length - itemsArray.length)
    | _ => .ok

/-- The element loop of `contains.validate`: the first validating element
succeeds; failures are local booleans, panics propagate. -/
def containsLoop (recur : Recur) (c : JsonSchema) (jsonPath : String) (jsonData : Json)
    (rootSchemaId : String) (index : Nat) : JsonList → VOut
  | .nil =>
    .fail (.keywordErr "contains"
      "could validate any of the inspected array's items against the given schema")
  | .cons _ rest =>
    match recur c (jsonPath ++ "/" ++ toString index) jsonData rootSchemaId with
    | .ok => .ok
    | .crash => .crash
    | .fail _ => containsLoop recur c jsonPath jsonData rootSchemaId (index + 1) rest

/-- `contains.validate` (keywordvalidator.go).  As in the source, a
non-array instance falls through to the same failure: `contains` is NOT
type-gated. -/
def containsValidate (recur : Recur) (c : JsonSchema) (jsonPath : String) (jsonData : Json)
    (rootSchemaId : String) : VOut :=
  match jsonData with
  | .arr array => containsLoop recur c jsonPath jsonData rootSchemaId 0 array
  | _ =>
    .fail (.keywordErr "contains"
      "could validate any of the inspected array's items against the given schema")

/-- The loop of `anyOf.validate`: first success wins. -/
def anyOfLoop (recur : Recur) (jsonData : Json) (rootSchemaId : String) : SList → VOut
  | .nil =>
    .fail (.keywordErr "anyOf"
      "inspected value could not be validated against any of the given schemas")
  | .cons schema rest =>
    match recur schema "" jsonData rootSchemaId with
    | .ok => .ok
    | .crash => .crash
    | .fail _ => anyOfLoop recur jsonData rootSchemaId rest

/-- `anyOf.validate` (keywordvalidator.go). -/
def anyOfValidate (recur : Recur) (l : SList) (jsonPath : String) (jsonData : Json)
    (rootSchemaId : String) : VOut :=
  anyOfLoop recur jsonData rootSchemaId l

/-- The loop of `allOf.validate`: first failure loses. -/
def allOfLoop (recur : Recur) (jsonData : Json) (rootSchemaId : String) : SList → VOut
  | .nil => .ok
  | .cons schema rest =>
    match recur schema "" jsonData rootSchemaId with
    | .ok => allOfLoop recur jsonData rootSchemaId rest
    | .crash => .crash
    | .fail _ =>
      .fail (.keywordErr "allOf"
        "inspected value could not be validated against all of the given schemas")

/-- `allOf.validate` (keywordvalidator.go). -/
def allOfValidate (recur : Recur) (l : SList) (jsonPath : String) (jsonData : Json)
    (rootSchemaId : String) : VOut :=
  allOfLoop recur jsonData rootSchemaId l

/-- The loop of `oneOf.validate` with its
`oneValidationAlreadySucceeded` flag. -/
def oneOfLoop (recur : Recur) (jsonData : Json) (rootSchemaId : String) :
    SList → Bool → VOut
  | .nil, flag =>
    if flag then .ok
    else .fail (.keywordErr "oneOf"
      "inspected value could not be validated against any of the given schemas")
  | .cons schema rest, flag =>
    match recur schema "" jsonData rootSchemaId with
    | .ok =>
      if flag then
        .fail (.keywordErr "oneOf" "inspected data is valid against more than one given schema")
      else oneOfLoop recur jsonData rootSchemaId rest true
    | .crash => .crash
    | .fail _ => oneOfLoop recur jsonData rootSchemaId rest flag

/-- `oneOf.validate` (keywordvalidator.go): each subschema is tried against
the whole local value (empty relative path); exactly one must succeed. -/
def oneOfValidate (recur : Recur) (of : SList) (jsonPath : String) (jsonData : Json)
    (rootSchemaId : String) : VOut :=
  oneOfLoop recur jsonData rootSchemaId of false

/-- `not.validate` (keywordvalidator.go): the subschema must fail (the
node's own instance path is passed through); panics propagate. -/
def notValidate (recur : Recur) (n : JsonSchema) (jsonPath : String) (jsonData : Json)
    (rootSchemaId : String) : VOut :=
  match recur n jsonPath jsonData rootSchemaId with
  | .crash => .crash
  | .fail _ => .ok
  | .ok =>
    .fail (.keywordErr "not"
      "inspected value did not fail on validation against the schema defined by this keyword")

/-- `_if.validate` (keywordvalidator.go): evaluate the `if` schema at the
empty relative path; on success delegate to the sibling `then` (when
linked), on failure to the sibling `else`; the outcome of `if` itself
never fails. -/
def ifValidate (recur : Recur) (i : JsonSchema) (siblingThen siblingElse : OptSchema)
    (jsonPath : String) (jsonData : Json) (rootSchemaId : String) : VOut :=
  match recur i "" jsonData rootSchemaId with
  | .crash => .crash
  | .ok =>
    match siblingThen with
    | .some t => recur t jsonPath jsonData rootSchemaId
    | .none => .ok
  | .fail _ =>
    match siblingElse with
    | .some e => recur e jsonPath jsonData rootSchemaId
    | .none => .ok

/-- `ref.validateByRef` (keywordvalidator.go lines 86-126).  The ref is
split on '#'; pieces 0 and 1 are read unconditionally, so a ref without '#'
panics with an index-out-of-range (crash).  An empty URI part is replaced
by the enclosing root's id.  Delegation passes `rootSchemaID` — the
referencing root's id — as the root id for the remainder of validation. -/
def validateByRef (pool : Pool) (recur : Recur) (r : String) (jsonPath : String)
    (jsonData : Json) (rootSchemaID : String) : VOut :=
  let splittedRef := goSplit r '#'
  match splittedRef with
  | [] => .crash
  | [_] => .crash
  | schemaURI :: fragment :: _ =>
    let schemaURI := if schemaURI = "" then rootSchemaID else schemaURI
    match poolFind pool schemaURI with
    | Option.some rootSchema =>
      if fragment ≠ "" then
        match indexFind rootSchema.subSchemaMap fragment with
        | Option.some subSchema => recur subSchema jsonPath jsonData rootSchemaID
        | Option.none =>
          .fail (.refErr schemaURI fragment
            "could not find fragment in the referenced root schema")
      else recur rootSchema.schema jsonPath jsonData rootSchemaID
    | Option.none =>
      .fail (.refErr schemaURI fragment "could not find the referenced root schema")

/-! ## The validation driver (jsonschema.go `validateJsonData`) -/

/-- The error-wrapping policy of `validateJsonData`'s keyword loop: a
`KeywordValidationError` becomes a `SchemaValidationError` at the node's
instance path; every other error (nested `SchemaValidationError`s,
reference errors, pointer errors) passes through unchanged. -/
def wrapKeywordError (jsonPath : String) : VOut → VOut
  | .fail (.keywordErr kw reason) =>
    .fail (.schemaErr jsonPath (errorMessage (.keywordErr kw reason)))
  | r => r

/-- One iteration of the keyword loop: on success continue with the rest,
otherwise return the (wrapped) error or the panic. -/
def keywordStep (jsonPath : String) (r : VOut) (rest : VOut) : VOut :=
  match wrapKeywordError jsonPath r with
  | .ok => rest
  | e => e

/-- The keyword loop of `validateJsonData` over the non-nil keywords, in
the order of `getNonNilKeywordsSlice`: type, minLength, minimum,
propertyNames, properties, dependencies, minProperties, items, contains,
additionalItems, minItems, anyOf, allOf, oneOf, not, if.  The
`additionalItems` validator receives the sibling `items` field and the
`if` validator the sibling `then`/`else` fields installed by
`connectRelatedKeywords`.  The regex-dependent validators
(`additionalProperties`, `patternProperties`, and the string keywords
`pattern`/`format`) are outside the modelled validator set — their fields
participate only in the compile-time walk, and no theorem in this file
validates a schema carrying them. -/
def runKeywordValidators (recur : Recur) (js : JsonSchema) (jsonPath : String) (value : Json)
    (rootSchemaId : String) : VOut :=
  keywordStep jsonPath
    (match js.typ with
     | Option.some t => typeValidate t jsonPath value rootSchemaId
     | Option.none => .ok) <|
  keywordStep jsonPath
    (match js.minLength with
     | Option.some ml => minLengthValidate ml jsonPath value rootSchemaId
     | Option.none => .ok) <|
  keywordStep jsonPath
    (match js.minimum with
     | Option.some m => minimumValidate m jsonPath value rootSchemaId
     | Option.none => .ok) <|
  keywordStep jsonPath
    (match js.propertyNames with
     | OptSchema.some pn => propertyNamesValidate recur pn jsonPath value rootSchemaId
     | OptSchema.none => .ok) <|
  keywordStep jsonPath
    (match js.properties with
     | OptProps.some p => propertiesValidate recur p jsonPath value rootSchemaId
     | OptProps.none => .ok) <|
  keywordStep jsonPath
    (match js.dependencies with
     | Deps.nil => .ok
     | d => dependenciesValidate recur d jsonPath value rootSchemaId) <|
  keywordStep jsonPath
    (match js.minProperties with
     | Option.some mp => minPropertiesValidate mp jsonPath value rootSchemaId
     | Option.none => .ok) <|
  keywordStep jsonPath
    (match js.items with
     | ItemsField.none => .ok
     | i => itemsValidate recur i jsonPath value rootSchemaId) <|
  keywordStep jsonPath
    (match js.contains with
     | OptSchema.some c => containsValidate recur c jsonPath value rootSchemaId
     | OptSchema.none => .ok) <|
  keywordStep jsonPath
    (match js.additionalItems with
     | OptSchema.some ai =>
       additionalItemsValidate recur ai js.items jsonPath value rootSchemaId
     | OptSchema.none => .ok) <|
  keywordStep jsonPath
    (match js.minItems with
     | Option.some mi => minItemsValidate mi jsonPath value rootSchemaId
     | Option.none => .ok) <|
  keywordStep jsonPath
    (match js.anyOf with
     | OptSList.some l => anyOfValidate recur l jsonPath value rootSchemaId
     | OptSList.none => .ok) <|
  keywordStep jsonPath
    (match js.allOf with
     | OptSList.some l => allOfValidate recur l jsonPath value rootSchemaId
     | OptSList.none => .ok) <|
  keywordStep jsonPath
    (match js.oneOf with
     | OptSList.some l => oneOfValidate recur l jsonPath value rootSchemaId
     | OptSList.none => .ok) <|
  keywordStep jsonPath
    (match js.notKw with
     | OptSchema.some n => notValidate recur n jsonPath value rootSchemaId
     | OptSchema.none => .ok) <|
  keywordStep jsonPath
    (match js.ifKw with
     | OptSchema.some i => ifValidate recur i js.thenKw js.elseKw jsonPath value rootSchemaId
     | OptSchema.none => .ok)
  VOut.ok

/-- `JsonSchema.validateJsonData` (jsonschema.go lines 613-691) with
explicit fuel: `rejectAll` fails outright; a `$ref` delegates to
`validateByRef` ignoring every other keyword; otherwise the local subvalue
is recovered by evaluating the last path segment as a relative pointer
against the raw data, and the non-nil keyword validators run in order. -/
def validateJsonData (pool : Pool) : Nat → JsonSchema → String → Json → String → VOut
  | 0, _, _, _, _ => .crash
  | fuel + 1, js, jsonPath, bytes, rootSchemaId =>
    if js.rejectAll then
      .fail (.schemaErr jsonPath "json schema \"false\" drops everything")
    else
      match js.ref with
      | Option.some r =>
        validateByRef pool (fun s p d rid => validateJsonData pool fuel s p d rid)
          r jsonPath bytes rootSchemaId
      | Option.none =>
        let jsonTokens := goSplit jsonPath '/'
        let relativeJsonPath := "/" ++ lastToken jsonTokens
        match NewJsonPointer relativeJsonPath with
        | .error e => .fail (.ptrErr relativeJsonPath e)
        | .ok jsonPointer =>
          match JsonPointer.Evaluate jsonPointer bytes with
          | .crash => .crash
          | .err p reason => .fail (.ptrErr p reason)
          | .ok value =>
            runKeywordValidators (fun s p d rid => validateJsonData pool fuel s p d rid)
              js jsonPath value rootSchemaId

/-- `RootJsonSchema.validateBytes` (rootjsonschema.go): validation starts
at the empty path with the root's id (or `""`). -/
def validateBytes (pool : Pool) (fuel : Nat) (rs : RootJsonSchema) (bytes : Json) : VOut :=
  validateJsonData pool fuel rs.schema "" bytes
    (match rs.schema.id with
     | Option.some i => i
     | Option.none => "")

/-- Modelled from the spec, section 4.6, for comparison with the source's
`validateByRef`: "All delegation uses the resolved root's id as the root id
for the remainder of the validation."  This variant is identical to
`validateByRef` except that it delegates with the resolved `schemaURI`
instead of the referencing `rootSchemaID`. -/
def validateByRefSpecId (pool : Pool) (recur : Recur) (r : String) (jsonPath : String)
    (jsonData : Json) (rootSchemaID : String) : VOut :=
  let splittedRef := goSplit r '#'
  match splittedRef with
  | [] => .crash
  | [_] => .crash
  | schemaURI :: fragment :: _ =>
    let schemaURI := if schemaURI = "" then rootSchemaID else schemaURI
    match poolFind pool schemaURI with
    | Option.some rootSchema =>
      if fragment ≠ "" then
        match indexFind rootSchema.subSchemaMap fragment with
        | Option.some subSchema => recur subSchema jsonPath jsonData schemaURI
        | Option.none =>
          .fail (.refErr schemaURI fragment
            "could not find fragment in the referenced root schema")
      else recur rootSchema.schema jsonPath jsonData schemaURI
    | Option.none =>
      .fail (.refErr schemaURI fragment "could not find the referenced root schema")

/-! ## Subschema-index construction (jsonschema.go `scanSchema` /
`mapSubSchema`, rootjsonschema.go `NewRootJsonSchema`)

`scanSchema` is threaded through the registry pool exactly as the source
is: `mapSubSchema` looks the root id up in the pool and, when an entry
exists, inserts the subschema into THAT entry's `subSchemaMap` (the
compiled root's own map in the normal case where `NewRootJsonSchema` has
just registered it; the previously registered root's map when the id was
already taken, since registration is skipped then). -/

/-- Go map insertion guarded by the `if _, ok := rs.subSchemaMap[schemaPath];
!ok` check of `mapSubSchema`: an existing entry is never overwritten. -/
def insertIfAbsent (m : List (String × JsonSchema)) (k : String) (js : JsonSchema) :
    List (String × JsonSchema) :=
  match indexFind m k with
  | Option.some _ => m
  | Option.none => (k, js) :: m

/-- Update the registry entry under `rid` (when present) by inserting
`path ↦ js` into its subschema map; a pool without that id is unchanged. -/
def poolUpdateSub (pool : Pool) (rid path : String) (js : JsonSchema) : Pool :=
  match pool with
  | [] => []
  | (k, R) :: rest =>
    if k = rid then (k, ⟨R.schema, insertIfAbsent R.subSchemaMap path js⟩) :: rest
    else (k, R) :: poolUpdateSub rest rid path js

/-- The subschema map entry of the registry entry under `rid`. -/
def entryFind (pool : Pool) (rid p : String) : Option JsonSchema :=
  match poolFind pool rid with
  | Option.some R => indexFind R.subSchemaMap p
  | Option.none => Option.none

/-- `mapSubSchema` (jsonschema.go lines 593-609): a subschema is recorded
only when the schema path is non-empty (not the root) *and* the root
schema id is non-empty; the insertion goes into the registry entry under
the root id, and is skipped when the pool has no such entry. -/
def mapSubSchema (js : JsonSchema) (schemaPath rootSchemaID : String) (pool : Pool) : Pool :=
  if schemaPath ≠ "" ∧ rootSchemaID ≠ "" then poolUpdateSub pool rootSchemaID schemaPath js
  else pool

set_option maxHeartbeats 1600000 in
mutual
/-- `JsonSchema.scanSchema` (jsonschema.go lines 291-539), in source
traversal order: the node itself via `mapSubSchema`, then properties,
additionalProperties, propertyNames, dependencies (schema-valued entries
only), patternProperties, definitions, items, additionalItems, contains,
anyOf, allOf, oneOf, not, and if — with then/else scanned ONLY inside the
if-present branch, and with the source's canonical path construction
(note the missing separator after `dependencies` and `items`). -/
def scanSchema (js : JsonSchema) (schemaPath rootSchemaID : String) (pool : Pool) : Pool :=
  match js with
  | .mk _ _ _ _ defs props addProps propNames deps patProps items cont addItems
      _ _ _ _ anyOfL allOfL oneOfL notO ifO thenO elseO =>
    scanIf ifO thenO elseO schemaPath rootSchemaID
      (scanOptChild notO (schemaPath ++ "/not") rootSchemaID
        (scanIndexedOpt oneOfL (schemaPath ++ "/oneOf/") rootSchemaID
          (scanIndexedOpt allOfL (schemaPath ++ "/allOf/") rootSchemaID
            (scanIndexedOpt anyOfL (schemaPath ++ "/anyOf/") rootSchemaID
              (scanOptChild cont (schemaPath ++ "/contains") rootSchemaID
                (scanOptChild addItems (schemaPath ++ "/additionalItems") rootSchemaID
                  (scanItemsField items schemaPath rootSchemaID
                    (scanKeyedMap defs (schemaPath ++ "/definitions/") rootSchemaID
                      (scanPropsOpt patProps (schemaPath ++ "/patternProperties/") rootSchemaID
                        (scanDeps deps (schemaPath ++ "/dependencies") rootSchemaID
                          (scanOptChild propNames (schemaPath ++ "/propertyNames") rootSchemaID
                            (scanOptChild addProps (schemaPath ++ "/additionalProperties") rootSchemaID
                              (scanPropsOpt props (schemaPath ++ "/properties/") rootSchemaID
                                (mapSubSchema js schemaPath rootSchemaID pool))))))))))))))
termination_by sizeOf js

/-- A possibly-nil keyed map walk (`properties`, `patternProperties`):
children at `base + key`. -/
def scanPropsOpt (o : OptProps) (base rootSchemaID : String) (pool : Pool) : Pool :=
  match o with
  | .none => pool
  | .some p => scanKeyedMap p base rootSchemaID pool
termination_by sizeOf o

/-- A keyed map walk (`properties`, `patternProperties`, `definitions`):
child of key k at `base + k`. -/
def scanKeyedMap (p : SProps) (base rootSchemaID : String) (pool : Pool) : Pool :=
  match p with
  | .nil => pool
  | .cons k s rest =>
    scanKeyedMap rest base rootSchemaID (scanSchema s (base ++ k) rootSchemaID pool)
termination_by sizeOf p

/-- The `dependencies` walk: only schema-valued entries are scanned, at
`base + key` (no separator after `dependencies`, as in the source). -/
def scanDeps (d : Deps) (base rootSchemaID : String) (pool : Pool) : Pool :=
  match d with
  | .nil => pool
  | .schemaDep k s rest =>
    scanDeps rest base rootSchemaID (scanSchema s (base ++ k) rootSchemaID pool)
  | .namesDep _ _ rest => scanDeps rest base rootSchemaID pool
termination_by sizeOf d

/-- The `items` walk: a single schema at `schemaPath + "/items"`, or the
indexed list walk at `schemaPath + "/items" + i` (no separator). -/
def scanItemsField (i : ItemsField) (schemaPath rootSchemaID : String) (pool : Pool) : Pool :=
  match i with
  | .none => pool
  | .single s => scanSchema s (schemaPath ++ "/items") rootSchemaID pool
  | .list l => scanIndexed l (schemaPath ++ "/items") rootSchemaID 0 pool
termination_by sizeOf i

/-- A possibly-nil indexed list walk (`anyOf`, `allOf`, `oneOf`): a nil
slice iterates zero times. -/
def scanIndexedOpt (o : OptSList) (base rootSchemaID : String) (pool : Pool) : Pool :=
  match o with
  | .none => pool
  | .some l => scanIndexed l base rootSchemaID 0 pool
termination_by sizeOf o

/-- An indexed list walk (`items` array, `anyOf`, `allOf`, `oneOf`):
child i at `base + i`. -/
def scanIndexed (l : SList) (base rootSchemaID : String) (index : Nat) (pool : Pool) : Pool :=
  match l with
  | .nil => pool
  | .cons s rest =>
    scanIndexed rest base rootSchemaID (index + 1)
      (scanSchema s (base ++ toString index) rootSchemaID pool)
termination_by sizeOf l

/-- An optional single-child walk (`additionalProperties`,
`propertyNames`, `additionalItems`, `contains`, `not`, and the
if/then/else children): child at `childPath`. -/
def scanOptChild (o : OptSchema) (childPath rootSchemaID : String) (pool : Pool) : Pool :=
  match o with
  | .none => pool
  | .some s => scanSchema s childPath rootSchemaID pool
termination_by sizeOf o

/-- The `if`/`then`/`else` walk (jsonschema.go lines 514-536): when `if`
is absent the `then` and `else` children are NOT scanned. -/
def scanIf (ifO thenO elseO : OptSchema) (schemaPath rootSchemaID : String) (pool : Pool) :
    Pool :=
  match ifO with
  | .none => pool
  | .some i =>
    scanOptChild elseO (schemaPath ++ "/else") rootSchemaID
      (scanOptChild thenO (schemaPath ++ "/then") rootSchemaID
        (scanSchema i (schemaPath ++ "/if") rootSchemaID pool))
termination_by sizeOf ifO + sizeOf thenO + sizeOf elseO
end

set_option maxHeartbeats 1600000 in
mutual
/-- Modelled from the spec: the claim's walk — "every subschema reachable
by walking the root from its entry node (through properties,
patternProperties, definitions, dependencies, items, additionalProperties,
additionalItems, propertyNames, contains, anyOf, allOf, oneOf, not, if,
then, else)" — with each keyword edge traversed whenever the keyword is
present, including `then` and `else` unconditionally (spec section 4.5
lists the canonical paths `/then` and `/else` with no side condition).
Each reachable subschema contributes its canonical path. -/
def subPaths (js : JsonSchema) (schemaPath : String) : List String :=
  match js with
  | .mk _ _ _ _ defs props addProps propNames deps patProps items cont addItems
      _ _ _ _ anyOfL allOfL oneOfL notO ifO thenO elseO =>
    subPathsPropsOpt props (schemaPath ++ "/properties/") ++
    subPathsOptChild addProps (schemaPath ++ "/additionalProperties") ++
    subPathsOptChild propNames (schemaPath ++ "/propertyNames") ++
    subPathsDeps deps (schemaPath ++ "/dependencies") ++
    subPathsPropsOpt patProps (schemaPath ++ "/patternProperties/") ++
    subPathsKeyed defs (schemaPath ++ "/definitions/") ++
    subPathsItemsField items schemaPath ++
    subPathsOptChild addItems (schemaPath ++ "/additionalItems") ++
    subPathsOptChild cont (schemaPath ++ "/contains") ++
    subPathsIndexedOpt anyOfL (schemaPath ++ "/anyOf/") ++
    subPathsIndexedOpt allOfL (schemaPath ++ "/allOf/") ++
    subPathsIndexedOpt oneOfL (schemaPath ++ "/oneOf/") ++
    subPathsOptChild notO (schemaPath ++ "/not") ++
    subPathsOptChild ifO (schemaPath ++ "/if") ++
    subPathsOptChild thenO (schemaPath ++ "/then") ++
    subPathsOptChild elseO (schemaPath ++ "/else")
termination_by sizeOf js

/-- Claim-walk paths of a possibly-nil keyed map. -/
def subPathsPropsOpt (o : OptProps) (base : String) : List String :=
  match o with
  | .none => []
  | .some p => subPathsKeyed p base
termination_by sizeOf o

/-- Claim-walk paths of a keyed map: child of key k at `base + k`. -/
def subPathsKeyed (p : SProps) (base : String) : List String :=
  match p with
  | .nil => []
  | .cons k s rest =>
    ((base ++ k) :: subPaths s (base ++ k)) ++ subPathsKeyed rest base
termination_by sizeOf p

/-- Claim-walk paths of the `dependencies` map (schema-valued entries). -/
def subPathsDeps (d : Deps) (base : String) : List String :=
  match d with
  | .nil => []
  | .schemaDep k s rest =>
    ((base ++ k) :: subPaths s (base ++ k)) ++ subPathsDeps rest base
  | .namesDep _ _ rest => subPathsDeps rest base
termination_by sizeOf d

/-- Claim-walk paths of the `items` field. -/
def subPathsItemsField (i : ItemsField) (schemaPath : String) : List String :=
  match i with
  | .none => []
  | .single s => (schemaPath ++ "/items") :: subPaths s (schemaPath ++ "/items")
  | .list l => subPathsIndexed l (schemaPath ++ "/items") 0
termination_by sizeOf i

/-- Claim-walk paths of a possibly-nil indexed schema list. -/
def subPathsIndexedOpt (o : OptSList) (base : String) : List String :=
  match o with
  | .none => []
  | .some l => subPathsIndexed l base 0
termination_by sizeOf o

/-- Claim-walk paths of an indexed schema list: child i at `base + i`. -/
def subPathsIndexed (l : SList) (base : String) (index : Nat) : List String :=
  match l with
  | .nil => []
  | .cons s rest =>
    ((base ++ toString index) :: subPaths s (base ++ toString index)) ++
    subPathsIndexed rest base (index + 1)
termination_by sizeOf l

/-- Claim-walk paths of an optional single child at `childPath`. -/
def subPathsOptChild (o : OptSchema) (childPath : String) : List String :=
  match o with
  | .none => []
  | .some s => childPath :: subPaths s childPath
termination_by sizeOf o
end

set_option maxHeartbeats 1600000 in
mutual
/-- The canonical paths of every subschema the COMPILER's walk
(`scanSchema`) actually visits, mirroring its traversal: identical to
`subPaths` except that `then`/`else` children are walked only when a
sibling `if` is present. -/
def walkedPaths (js : JsonSchema) (schemaPath : String) : List String :=
  match js with
  | .mk _ _ _ _ defs props addProps propNames deps patProps items cont addItems
      _ _ _ _ anyOfL allOfL oneOfL notO ifO thenO elseO =>
    walkedPropsOpt props (schemaPath ++ "/properties/") ++
    walkedOptChild addProps (schemaPath ++ "/additionalProperties") ++
    walkedOptChild propNames (schemaPath ++ "/propertyNames") ++
    walkedDeps deps (schemaPath ++ "/dependencies") ++
    walkedPropsOpt patProps (schemaPath ++ "/patternProperties/") ++
    walkedKeyed defs (schemaPath ++ "/definitions/") ++
    walkedItemsField items schemaPath ++
    walkedOptChild addItems (schemaPath ++ "/additionalItems") ++
    walkedOptChild cont (schemaPath ++ "/contains") ++
    walkedIndexedOpt anyOfL (schemaPath ++ "/anyOf/") ++
    walkedIndexedOpt allOfL (schemaPath ++ "/allOf/") ++
    walkedIndexedOpt oneOfL (schemaPath ++ "/oneOf/") ++
    walkedOptChild notO (schemaPath ++ "/not") ++
    walkedIfPaths ifO thenO elseO schemaPath
termination_by sizeOf js

/-- Code-walk paths of a possibly-nil keyed map. -/
def walkedPropsOpt (o : OptProps) (base : String) : List String :=
  match o with
  | .none => []
  | .some p => walkedKeyed p base
termination_by sizeOf o

/-- Code-walk paths of a keyed map. -/
def walkedKeyed (p : SProps) (base : String) : List String :=
  match p with
  | .nil => []
  | .cons k s rest =>
    ((base ++ k) :: walkedPaths s (base ++ k)) ++ walkedKeyed rest base
termination_by sizeOf p

/-- Code-walk paths of the `dependencies` map. -/
def walkedDeps (d : Deps) (base : String) : List String :=
  match d with
  | .nil => []
  | .schemaDep k s rest =>
    ((base ++ k) :: walkedPaths s (base ++ k)) ++ walkedDeps rest base
  | .namesDep _ _ rest => walkedDeps rest base
termination_by sizeOf d

/-- Code-walk paths of the `items` field. -/
def walkedItemsField (i : ItemsField) (schemaPath : String) : List String :=
  match i with
  | .none => []
  | .single s => (schemaPath ++ "/items") :: walkedPaths s (schemaPath ++ "/items")
  | .list l => walkedIndexed l (schemaPath ++ "/items") 0
termination_by sizeOf i

/-- Code-walk paths of a possibly-nil indexed schema list. -/
def walkedIndexedOpt (o : OptSList) (base : String) : List String :=
  match o with
  | .none => []
  | .some l => walkedIndexed l base 0
termination_by sizeOf o

/-- Code-walk paths of an indexed schema list. -/
def walkedIndexed (l : SList) (base : String) (index : Nat) : List String :=
  match l with
  | .nil => []
  | .cons s rest =>
    ((base ++ toString index) :: walkedPaths s (base ++ toString index)) ++
    walkedIndexed rest base (index + 1)
termination_by sizeOf l

/-- Code-walk paths of an optional single child at `childPath`. -/
def walkedOptChild (o : OptSchema) (childPath : String) : List String :=
  match o with
  | .none => []
  | .some s => childPath :: walkedPaths s childPath
termination_by sizeOf o

/-- Code-walk paths of the `if`/`then`/`else` group: nothing when `if` is
absent (jsonschema.go lines 514-536). -/
def walkedIfPaths (ifO thenO elseO : OptSchema) (schemaPath : String) : List String :=
  match ifO with
  | .none => []
  | .some i =>
    ((schemaPath ++ "/if") :: walkedPaths i (schemaPath ++ "/if")) ++
    walkedOptChild thenO (schemaPath ++ "/then") ++
    walkedOptChild elseO (schemaPath ++ "/else")
termination_by sizeOf ifO + sizeOf thenO + sizeOf elseO
end

/-! ## Shared concrete schemas and instances used by the theorems -/

/-- The schema fragment `\x7b"type":"string"\x7d`. -/
def stringTypeSchema : JsonSchema := typeOnlySchema "string"

/-- The schema fragment `\x7b"type":"number"\x7d`. -/
def numberTypeSchema : JsonSchema := typeOnlySchema "number"

/-- The schema fragment `\x7b"type":"integer"\x7d`. -/
def integerTypeSchema : JsonSchema := typeOnlySchema "integer"

/-- The schema fragment `\x7b"type":"boolean"\x7d`. -/
def booleanTypeSchema : JsonSchema := typeOnlySchema "boolean"

/-- Scenario S5 of the spec:
`\x7b"items":[\x7b"type":"string"\x7d,\x7b"type":"number"\x7d],"additionalItems":\x7b"type":"boolean"\x7d\x7d`. -/
def schemaS5 : JsonSchema :=
  .mk false .none .none .none .nil .none
    .none .none .nil .none (.list (SList.ofList [stringTypeSchema, numberTypeSchema])) .none
    (.some booleanTypeSchema) .none .none .none .none .none
    .none .none .none .none .none .none

/-- `\x7b"items":[\x7b"type":"boolean"\x7d],"additionalItems":\x7b"type":"boolean"\x7d\x7d`: a
schema separating the code's additionalItems indexing from the spec's. -/
def schemaItemsBoolAddBool : JsonSchema :=
  .mk false .none .none .none .nil .none
    .none .none .nil .none (.list (SList.ofList [booleanTypeSchema])) .none
    (.some booleanTypeSchema) .none .none .none .none .none
    .none .none .none .none .none .none

/-- Scenario S7 of the spec:
`\x7b"oneOf":[\x7b"type":"number"\x7d,\x7b"type":"integer"\x7d]\x7d`. -/
def schemaS7 : JsonSchema :=
  .mk false .none .none .none .nil .none
    .none .none .nil .none .none .none
    .none .none .none .none .none .none
    .none (.some (SList.ofList [numberTypeSchema, integerTypeSchema])) .none .none .none .none

/-- The schema `\x7b"minLength": 5\x7d` of testable property 2. -/
def minLengthFiveSchema : JsonSchema :=
  .mk false .none .none .none .nil .none
    .none .none .nil .none .none .none
    .none .none (Option.some 5) .none .none .none
    .none .none .none .none .none .none

/-- The instance `["x", 1, true, false]`. -/
def instFourItems : Json :=
  .arr (JsonList.ofList [.str "x", .num 1 1, .bool true, .bool false])

/-- The instance `["x", 1, 0]`. -/
def instThreeItems : Json :=
  .arr (JsonList.ofList [.str "x", .num 1 1, .num 0 1])

/-- The instance `[true, "x"]`. -/
def instBoolThenStr : Json :=
  .arr (JsonList.ofList [.bool true, .str "x"])

/-- The root node of registry root "A" (carrying `$id` "A"). -/
def schemaWithIdA : JsonSchema :=
  .mk false .none (Option.some "A") .none .nil .none
    .none .none .nil .none .none .none
    .none .none .none .none .none .none
    .none .none .none .none .none .none

/-- The root node of registry root "B" (carrying `$id` "B"). -/
def schemaWithIdB : JsonSchema :=
  .mk false .none (Option.some "B") .none .nil .none
    .none .none .nil .none .none .none
    .none .none .none .none .none .none
    .none .none .none .none .none .none

/-- The nested reference `\x7b"$ref":"#/definitions/y"\x7d` sitting inside
root "B". -/
def nestedRefSchema : JsonSchema := refOnlySchema "#/definitions/y"

/-- Registry root "A": its `/definitions/y` is `\x7b"type":"string"\x7d`. -/
def rootA : RootJsonSchema :=
  ⟨schemaWithIdA, [("/definitions/y", stringTypeSchema)]⟩

/-- Registry root "B": its `/definitions/x` is `\x7b"$ref":"#/definitions/y"\x7d`
and its `/definitions/y` is `\x7b"type":"number"\x7d`. -/
def rootB : RootJsonSchema :=
  ⟨schemaWithIdB, [("/definitions/x", nestedRefSchema), ("/definitions/y", numberTypeSchema)]⟩

/-- A registry holding roots "A" and "B". -/
def poolAB : Pool := [("A", rootA), ("B", rootB)]

/-- The referencing node `\x7b"$ref":"B#/definitions/x"\x7d`. -/
def crossRefSchema : JsonSchema := refOnlySchema "B#/definitions/x"

/-- An anonymous (no `$id`) root whose node is `\x7b"type":"string"\x7d`. -/
def anonRootString : RootJsonSchema := ⟨stringTypeSchema, []⟩

/-- An anonymous (no `$id`) root whose node is `\x7b"type":"number"\x7d`. -/
def anonRootNumber : RootJsonSchema := ⟨numberTypeSchema, []⟩

/-- An anonymous root schema with a single `properties` child: the walk
reaches `/properties/a` but `mapSubSchema` indexes nothing for it. -/
def anonPropsSchema : JsonSchema :=
  .mk false .none .none .none .nil (.some (SProps.ofList [("a", emptyJsonSchema)]))
    .none .none .nil .none .none .none
    .none .none .none .none .none .none
    .none .none .none .none .none .none

/-- A root schema carrying `$id` "R" and a lone `then` subschema with no
sibling `if`: the claim's walk reaches `/then`, but the compiler's walk
(jsonschema.go lines 514-536) scans `then`/`else` only when `if` is
present, so nothing is indexed for it. -/
def thenOnlySchema : JsonSchema :=
  .mk false .none (Option.some "R") .none .nil .none
    .none .none .nil .none .none .none
    .none .none .none .none .none .none
    .none .none .none .none (.some emptyJsonSchema) .none

/-- The registry right after `NewRootJsonSchema` registered
`thenOnlySchema` under "R" and before its scan. -/
def poolR : Pool := [("R", ⟨thenOnlySchema, []⟩)]

/-- The registry right after the anonymous `anonPropsSchema` root was
registered under "" and before its scan. -/
def poolAnon : Pool := [("", ⟨anonPropsSchema, []⟩)]

/-! ## Theorems -/

/-- C4: `NewJsonPointer "/5"` parses to the one-token pointer `["5"]`, and
evaluating it (or the pointer `["-1"]`) on the two-element array `[1, 2]`
reaches the unchecked Go indexing `v[index]` and panics (`crash`) instead
of returning a missing-token error, contradicting the claim that pointer
evaluation is total and never accesses the array out of bounds. -/
theorem C4_evaluate_out_of_range_panics :
    NewJsonPointer "/5" = Except.ok ["5"] ∧
    JsonPointer.Evaluate ["5"]
      (Json.arr (JsonList.ofList [Json.num 1 1, Json.num 2 1])) = EvalOut.crash ∧
    NewJsonPointer "/-1" = Except.ok ["-1"] ∧
    JsonPointer.Evaluate ["-1"]
      (Json.arr (JsonList.ofList [Json.num 1 1, Json.num 2 1])) = EvalOut.crash :=
  ⟨rfl, rfl, rfl, rfl⟩

/-- C9: the relative-json-pointer checker accepts "-1/foo" and "-1#"
(negative integer prefixes) because the branch `err != nil || i < 0`
returns the nil `err` when the prefix parsed successfully to a negative
integer; the claim (and the check's own `i < 0` guard) requires rejection.
Well-formed inputs behave as specified. -/
theorem C9_negative_prefix_accepted :
    IsValidRelJSONPointer "-1/foo" = true ∧
    IsValidRelJSONPointer "-1#" = true ∧
    IsValidRelJSONPointer "1/foo" = true ∧
    IsValidRelJSONPointer "0#" = true ∧
    IsValidRelJSONPointer "abc" = false ∧
    IsValidRelJSONPointer "1/fo~o" = false :=
  ⟨rfl, rfl, rfl, rfl, rfl, rfl⟩

/-- C6: the compilation of `\x7b\x7d` and of `true` accepts every JSON value —
null, booleans, numbers, strings, arrays, objects alike — and the
compilation of `false` (`rejectAll`) rejects every JSON value, including
`null`, with the fixed rejection error. -/
theorem C6_boolean_schemas (pool : Pool) (fuel : Nat) (v : Json) (rootId : String) :
    validateJsonData pool (fuel + 1) (compileBoolSchema true) "" v rootId = VOut.ok ∧
    validateJsonData pool (fuel + 1) emptyJsonSchema "" v rootId = VOut.ok ∧
    validateJsonData pool (fuel + 1) (compileBoolSchema false) "" v rootId =
      VOut.fail (.schemaErr "" "json schema \"false\" drops everything") :=
  ⟨rfl, rfl, rfl⟩

/-- C8: every modelled type-specific keyword succeeds vacuously on an
instance of any other JSON type — `minLength` (string keyword) on
non-strings, `minimum` (numeric) on non-numbers, `minProperties` (object)
on non-objects, `minItems` (array) on non-arrays — and, end to end, the
schema `\x7b"minLength": 5\x7d` accepts `42`, `true`, `null`, `[]` and `\x7b\x7d`
while still rejecting the short string `"hi"`. -/
theorem C8_type_gating (path rid : String)
    (n : Int) (v : Json) (h1 : v.isStr = false)
    (mq : Int × Nat) (w : Json) (h2 : w.isNum = false)
    (k : Int) (u : Json) (h3 : u.isObj = false)
    (j : Int) (t : Json) (h4 : t.isArr = false) :
    minLengthValidate n path v rid = VOut.ok ∧
    minimumValidate mq path w rid = VOut.ok ∧
    minPropertiesValidate k path u rid = VOut.ok ∧
    minItemsValidate j path t rid = VOut.ok ∧
    validateJsonData [] 5 minLengthFiveSchema "" (Json.num 42 1) "" = VOut.ok ∧
    validateJsonData [] 5 minLengthFiveSchema "" (Json.bool true) "" = VOut.ok ∧
    validateJsonData [] 5 minLengthFiveSchema "" Json.null "" = VOut.ok ∧
    validateJsonData [] 5 minLengthFiveSchema "" (Json.arr .nil) "" = VOut.ok ∧
    validateJsonData [] 5 minLengthFiveSchema "" (Json.obj .nil) "" = VOut.ok ∧
    validateJsonData [] 5 minLengthFiveSchema "" (Json.str "hi") "" ≠ VOut.ok := by
  refine ⟨?_, ?_, ?_, ?_, rfl, rfl, rfl, rfl, rfl, by decide⟩
  · cases v <;> simp_all [minLengthValidate, Json.isStr]
  · cases w <;> simp_all [minimumValidate, Json.isNum]
  · cases u <;> simp_all [minPropertiesValidate, Json.isObj]
  · cases t <;> simp_all [minItemsValidate, Json.isArr]

/-- Witness for C8 at concrete inputs: `minLength 3` on the number `7`,
`minimum 2` on a string, `minProperties 1` on `true`, `minItems 1` on
`null`, plus the end-to-end facts. -/
theorem C8_type_gating_witness :
    minLengthValidate 3 "" (Json.num 7 1) "" = VOut.ok ∧
    minimumValidate (2, 1) "" (Json.str "s") "" = VOut.ok ∧
    minPropertiesValidate 1 "" (Json.bool true) "" = VOut.ok ∧
    minItemsValidate 1 "" Json.null "" = VOut.ok ∧
    validateJsonData [] 5 minLengthFiveSchema "" (Json.num 42 1) "" = VOut.ok ∧
    validateJsonData [] 5 minLengthFiveSchema "" (Json.bool true) "" = VOut.ok ∧
    validateJsonData [] 5 minLengthFiveSchema "" Json.null "" = VOut.ok ∧
    validateJsonData [] 5 minLengthFiveSchema "" (Json.arr .nil) "" = VOut.ok ∧
    validateJsonData [] 5 minLengthFiveSchema "" (Json.obj .nil) "" = VOut.ok ∧
    validateJsonData [] 5 minLengthFiveSchema "" (Json.str "hi") "" ≠ VOut.ok :=
  C8_type_gating "" "" 3 (Json.num 7 1) rfl (2, 1) (Json.str "s") rfl
    1 (Json.bool true) rfl 1 Json.null rfl

/-- C1: the spec (and scenario S5) requires `additionalItems` to validate
exactly the instance elements at indices ≥ len(items); the code's
`for index := range array[len(itemsArray):]` loop instead yields indices
starting at 0, so the FIRST elements are re-validated against the
`additionalItems` schema.  Consequently S5's accept-instance
`["x",1,true,false]` is rejected (its element 0, "x", is checked against
`\x7b"type":"boolean"\x7d`), and the instance `[true,"x"]` against
`\x7b"items":[\x7b"type":"boolean"\x7d],"additionalItems":\x7b"type":"boolean"\x7d\x7d` is
accepted even though its element 1, "x", should have been rejected. -/
theorem C1_additionalItems_misindexed :
    validateJsonData [] 10 schemaS5 "" instFourItems "" ≠ VOut.ok ∧
    validateJsonData [] 10 schemaS5 "" instThreeItems "" ≠ VOut.ok ∧
    validateJsonData [] 10 schemaItemsBoolAddBool "" instBoolThenStr "" = VOut.ok := by
  refine ⟨by decide, by decide, by decide⟩

/-- C5: registering a second anonymous root leaves the first in place —
`NewRootJsonSchema` only inserts when the id is absent, so the first
write wins, not the last as the claim states. -/
theorem C5_counterexample :
    poolFind (newRootRegister (newRootRegister [] anonRootString) anonRootNumber) "" =
      Option.some anonRootString ∧
    anonRootString ≠ anonRootNumber := by
  refine ⟨rfl, by decide⟩

/-- C5 amended: when two root schemas that both carry no `$id` are compiled
one after the other into a registry with no anonymous entry, the entry
under the reserved key `""` afterwards is the root registered FIRST; the
second registration is a no-op. -/
theorem C5_first_write_wins (pool : Pool) (r1 r2 : RootJsonSchema)
    (h1 : r1.schema.id = Option.none) (h2 : r2.schema.id = Option.none)
    (h3 : poolFind pool "" = Option.none) :
    poolFind (newRootRegister (newRootRegister pool r1) r2) "" = Option.some r1 := by
  simp [newRootRegister, h1, h2, h3, poolFind]

/-- Witness for C5 amended: the two concrete anonymous roots in the empty
registry. -/
theorem C5_first_write_wins_witness :
    poolFind (newRootRegister (newRootRegister [] anonRootString) anonRootNumber) "" =
      Option.some anonRootString :=
  C5_first_write_wins [] anonRootString anonRootNumber rfl rfl rfl

/-- The number of subschemas in the list that validate the instance
(`validateJsonData` returning the nil error) under the recursive callback,
each tried at the empty relative path exactly as `oneOf.validate` does. -/
def countOkS (recur : Recur) (jsonData : Json) (rootSchemaId : String) : SList → Nat
  | .nil => 0
  | .cons s rest =>
    (match recur s "" jsonData rootSchemaId with
     | .ok => 1
     | _ => 0) + countOkS recur jsonData rootSchemaId rest

/-- No subschema validation in the list panics (Go panics propagate out of
`oneOf.validate` instead of counting as failures). -/
def crashFreeS (recur : Recur) (jsonData : Json) (rootSchemaId : String) : SList → Bool
  | .nil => true
  | .cons s rest =>
    (match recur s "" jsonData rootSchemaId with
     | .crash => false
     | _ => true) && crashFreeS recur jsonData rootSchemaId rest

/-- Loop invariant of `oneOf.validate`: with the
`oneValidationAlreadySucceeded` flag counted in, the loop returns the nil
error exactly when the total number of successes is one. -/
theorem oneOfLoop_ok_iff (recur : Recur) (d : Json) (rid : String) :
    ∀ (l : SList) (flag : Bool), crashFreeS recur d rid l = true →
    (oneOfLoop recur d rid l flag = VOut.ok ↔
      countOkS recur d rid l + (if flag then 1 else 0) = 1)
  | .nil, flag, _ => by cases flag <;> simp [oneOfLoop, countOkS]
  | .cons s rest, flag, h => by
    have hparts := h
    rw [crashFreeS, Bool.and_eq_true] at hparts
    have hrest : crashFreeS recur d rid rest = true := hparts.2
    cases hre : recur s "" d rid with
    | crash => rw [hre] at hparts; simp at hparts
    | ok =>
      cases flag with
      | true => simp [oneOfLoop, countOkS, hre]
      | false =>
        rw [oneOfLoop, hre]
        have hIH := oneOfLoop_ok_iff recur d rid rest true hrest
        simp only [countOkS, hre]
        simp only [Bool.false_eq_true, if_false, if_pos] at hIH ⊢
        rw [hIH]
        omega
    | fail e =>
      rw [oneOfLoop, hre]
      simp only [countOkS, hre]
      rw [oneOfLoop_ok_iff recur d rid rest flag hrest]
      omega

/-- C7: `oneOf` succeeds exactly when precisely one subschema validates the
instance — zero successes fail and two-or-more fail — provided no
subschema validation panics; and, end to end, scenario S7's schema
rejects the instance `1` (both `number` and `integer` match) and accepts
`1.5` (only `number` matches). -/
theorem C7_oneOf_exactly_one (recur : Recur) (l : SList) (jsonPath : String) (d : Json)
    (rid : String) (h : crashFreeS recur d rid l = true) :
    (oneOfValidate recur l jsonPath d rid = VOut.ok ↔ countOkS recur d rid l = 1) ∧
    validateJsonData [] 5 schemaS7 "" (Json.num 1 1) "" ≠ VOut.ok ∧
    validateJsonData [] 5 schemaS7 "" (Json.num 3 2) "" = VOut.ok := by
  refine ⟨?_, by decide, by decide⟩
  have hx := oneOfLoop_ok_iff recur d rid l false h
  simpa [oneOfValidate] using hx

/-- Witness for C7 at a concrete input: S7's subschema list against the
instance `1.5` with the real driver as the recursive callback. -/
theorem C7_oneOf_witness :
    (oneOfValidate (fun s p dd r => validateJsonData [] 4 s p dd r)
        (SList.ofList [numberTypeSchema, integerTypeSchema]) "" (Json.num 3 2) "" = VOut.ok ↔
      countOkS (fun s p dd r => validateJsonData [] 4 s p dd r) (Json.num 3 2) ""
        (SList.ofList [numberTypeSchema, integerTypeSchema]) = 1) ∧
    validateJsonData [] 5 schemaS7 "" (Json.num 1 1) "" ≠ VOut.ok ∧
    validateJsonData [] 5 schemaS7 "" (Json.num 3 2) "" = VOut.ok :=
  C7_oneOf_exactly_one (fun s p dd r => validateJsonData [] 4 s p dd r)
    (SList.ofList [numberTypeSchema, integerTypeSchema]) "" (Json.num 3 2) "" (by decide)

/-- A separator-free character list splits to itself. -/
theorem splitChar_of_not_mem (c : Char) (l : List Char) (h : c ∉ l) :
    splitChar c l = [l] := by
  induction l with
  | nil => rfl
  | cons x xs ih =>
    have hx : ¬x = c := fun hq => h (hq ▸ List.mem_cons_self x xs)
    have hxs : c ∉ xs := fun hq => h (List.mem_cons_of_mem x hq)
    rw [splitChar, if_neg hx, ih hxs]

/-- Splitting at the first separator occurrence. -/
theorem splitChar_append (c : Char) (xs ys : List Char) (h : c ∉ xs) :
    splitChar c (xs ++ c :: ys) = xs :: splitChar c ys := by
  induction xs with
  | nil => simp [splitChar]
  | cons x xt ih =>
    have hx : ¬x = c := fun hq => h (hq ▸ List.mem_cons_self x xt)
    have hxt : c ∉ xt := fun hq => h (List.mem_cons_of_mem x hq)
    rw [List.cons_append, splitChar, if_neg hx, ih hxt]

/-- Go `strings.Split(uri + "#" + frag, "#")` recovers the two pieces when
neither contains '#'. -/
theorem goSplit_hash (uri frag : String) (h1 : '#' ∉ uri.toList) (h2 : '#' ∉ frag.toList) :
    goSplit (uri ++ "#" ++ frag) '#' = [uri, frag] := by
  have hdata : (uri ++ "#" ++ frag).toList = uri.toList ++ '#' :: frag.toList := by
    show (uri.toList ++ ['#']) ++ frag.toList = uri.toList ++ '#' :: frag.toList
    simp
  rw [goSplit, hdata, splitChar_append '#' _ _ h1, splitChar_of_not_mem '#' _ h2]
  rfl

/-- C2 counterexample: in a registry where root "A" resolves
`/definitions/y` to `\x7b"type":"string"\x7d` and root "B" resolves it to
`\x7b"type":"number"\x7d`, validating via `\x7b"$ref":"B#/definitions/x"\x7d` from root
"A" (where B's `/definitions/x` is the nested `\x7b"$ref":"#/definitions/y"\x7d`)
rejects the number `1` and accepts the string `"s"` — the nested empty-URI
ref resolved against the referencing root "A", not against the resolved
root "B" as the claim states; the spec-modelled variant that delegates
with the resolved root's id accepts `1`. -/
theorem C2_counterexample :
    validateJsonData poolAB 10 crossRefSchema "" (Json.num 1 1) "A" ≠ VOut.ok ∧
    validateJsonData poolAB 10 crossRefSchema "" (Json.str "s") "A" = VOut.ok ∧
    validateByRefSpecId poolAB (fun s p d r => validateJsonData poolAB 9 s p d r)
      "B#/definitions/x" "" (Json.num 1 1) "A" = VOut.ok := by
  refine ⟨by decide, by decide, by decide⟩

/-- C2 amended: whenever a `$ref` of the form `base#fragment` resolves to a
node of a root schema found in the registry, the delegated validation of
that node uses the REFERENCING root's id (`rootSchemaID`) as the root id
for the rest of the validation — so a nested `$ref` with an empty URI part
resolves against the referencing root's registry entry. -/
theorem C2_delegation_keeps_referencing_id (pool : Pool) (recur : Recur)
    (uri frag : String) (h1 : '#' ∉ uri.toList) (h2 : '#' ∉ frag.toList)
    (h3 : ¬uri = "") (h4 : ¬frag = "")
    (R : RootJsonSchema) (s : JsonSchema)
    (h5 : poolFind pool uri = Option.some R)
    (h6 : indexFind R.subSchemaMap frag = Option.some s)
    (jsonPath : String) (d : Json) (rid : String) :
    validateByRef pool recur (uri ++ "#" ++ frag) jsonPath d rid = recur s jsonPath d rid := by
  rw [validateByRef, goSplit_hash uri frag h1 h2]
  simp [h3, h4, h5, h6]

/-- Witness for C2 amended: the concrete cross-root reference
`B#/definitions/x` in the two-root registry with a constant callback. -/
theorem C2_delegation_witness :
    validateByRef poolAB (fun _ _ _ _ => VOut.ok) ("B" ++ "#" ++ "/definitions/x")
      "" Json.null "A" = VOut.ok :=
  C2_delegation_keeps_referencing_id poolAB (fun _ _ _ _ => VOut.ok) "B" "/definitions/x"
    (by decide) (by decide) (by decide) (by decide) rootB nestedRefSchema rfl rfl
    "" Json.null "A"

/-- Length of a character-list split: one more than the separator count. -/
theorem splitChar_length (c : Char) (l : List Char) :
    (splitChar c l).length = l.count c + 1 := by
  induction l with
  | nil => rfl
  | cons x xs ih =>
    by_cases hx : x = c
    · subst hx
      rw [splitChar, if_pos rfl]
      simp [ih, List.count_cons]
    · rw [splitChar, if_neg hx]
      rcases hs : splitChar c xs with _ | ⟨h0, t⟩
      · rw [hs] at ih; simp at ih
      · rw [hs] at ih
        simp only [List.length_cons] at ih ⊢
        rw [List.count_cons]
        simp [hx]
        omega

/-- C10 counterexample: a `$ref` value without '#' does not produce an
error value — `splittedRef[1]` indexes past the end of the one-element
split and panics. -/
theorem C10_counterexample :
    validateByRef [] (fun s p d r => validateJsonData [] 5 s p d r) "abc" "" Json.null "" =
      VOut.crash :=
  rfl

/-- C10 amended: the unconditional indexing of the split result is safe
exactly under the precondition that the ref contains '#': whenever it
does (and the delegated validation itself never panics), `validateByRef`
does not crash — it resolves or returns an `InvalidReferenceError`. -/
theorem C10_hash_precondition (pool : Pool) (recur : Recur) (r jsonPath : String)
    (d : Json) (rid : String) (hhash : '#' ∈ r.toList)
    (hrec : ∀ s q e i, recur s q e i ≠ VOut.crash) :
    validateByRef pool recur r jsonPath d rid ≠ VOut.crash := by
  have hcount : 0 < r.toList.count '#' := List.count_pos_iff_mem.mpr hhash
  have hlen : 2 ≤ (goSplit r '#').length := by
    rw [goSplit, List.length_map, splitChar_length]
    omega
  obtain ⟨a, b, t, hx⟩ : ∃ a b t, goSplit r '#' = a :: b :: t := by
    rcases hg : goSplit r '#' with _ | ⟨a, _ | ⟨b, t⟩⟩
    · rw [hg] at hlen; simp at hlen
    · rw [hg] at hlen; simp at hlen
    · exact ⟨a, b, t, rfl⟩
  rw [validateByRef, hx]
  dsimp only
  cases hpf : poolFind pool (if a = "" then rid else a) with
  | none => simp
  | some R =>
    simp only [hpf]
    by_cases hb : b = ""
    · rw [if_neg (by simp [hb])]
      exact hrec _ _ _ _
    · rw [if_pos hb]
      cases hif : indexFind R.subSchemaMap b with
      | none => simp [hif]
      | some s => simp only [hif]; exact hrec _ _ _ _

/-- Witness for C10 amended: the whole-root self reference "#" with a
constant callback in the empty registry. -/
theorem C10_hash_precondition_witness :
    validateByRef [] (fun _ _ _ _ => VOut.ok) "#" "" Json.null "" ≠ VOut.crash :=
  C10_hash_precondition [] (fun _ _ _ _ => VOut.ok) "#" "" Json.null ""
    (by decide) (fun _ _ _ _ h => VOut.noConfusion h)


/-! ## Lemmas about the subschema-index construction -/

/-- Inserting under one key preserves presence of every present key. -/
theorem insertIfAbsent_mono (m : List (String × JsonSchema)) (k : String) (js : JsonSchema)
    (q : String) (h : (indexFind m q).isSome = true) :
    (indexFind (insertIfAbsent m k js) q).isSome = true := by
  unfold insertIfAbsent
  cases hf : indexFind m k with
  | some _ => exact h
  | none =>
    simp only [indexFind]
    by_cases hq : k = q
    · simp [hq]
    · simp [hq, h]

/-- After `insertIfAbsent m k js` the key `k` is present. -/
theorem insertIfAbsent_self (m : List (String × JsonSchema)) (k : String) (js : JsonSchema) :
    (indexFind (insertIfAbsent m k js) k).isSome = true := by
  unfold insertIfAbsent
  cases hf : indexFind m k with
  | some v => simp [hf]
  | none => simp [indexFind]

/-- Characterisation of `poolFind` after a `poolUpdateSub`: only the entry
under the updated id changes, by an `insertIfAbsent` on its map. -/
theorem poolFind_poolUpdateSub (pool : Pool) (rid path : String) (js : JsonSchema)
    (k : String) :
    poolFind (poolUpdateSub pool rid path js) k =
      if k = rid then
        (poolFind pool k).map (fun R => ⟨R.schema, insertIfAbsent R.subSchemaMap path js⟩)
      else poolFind pool k := by
  induction pool with
  | nil => by_cases hk : k = rid <;> simp [poolUpdateSub, poolFind, hk]
  | cons hd rest ih =>
    obtain ⟨k0, R⟩ := hd
    simp only [poolUpdateSub]
    by_cases hk0 : k0 = rid
    · subst hk0
      by_cases hk : k = k0
      · subst hk
        simp [poolFind]
      · have hne : ¬k0 = k := fun hx => hk hx.symm
        simp [poolFind, hne, hk]
    · by_cases hq : k0 = k
      · subst hq
        have hne : ¬k0 = rid := hk0
        simp [poolFind, hk0, fun hx : k0 = rid => hne hx]
      · simp [poolFind, hk0, hq, ih]

/-- Pool keys survive `poolUpdateSub`. -/
theorem poolUpdateSub_keys (pool : Pool) (rid path : String) (js : JsonSchema) (k : String)
    (h : (poolFind pool k).isSome = true) :
    (poolFind (poolUpdateSub pool rid path js) k).isSome = true := by
  rw [poolFind_poolUpdateSub]
  by_cases hk : k = rid
  · rw [if_pos hk]
    cases hf : poolFind pool k with
    | none => rw [hf] at h; simp at h
    | some R => simp
  · rw [if_neg hk]
    exact h

/-- `entryFind` as an `Option.bind`, convenient for rewriting. -/
theorem entryFind_eq (pool : Pool) (rid p : String) :
    entryFind pool rid p =
      Option.bind (poolFind pool rid) (fun R => indexFind R.subSchemaMap p) := by
  unfold entryFind
  cases poolFind pool rid <;> rfl

/-- Entries present in any root's map survive `poolUpdateSub`. -/
theorem poolUpdateSub_entry_mono (pool : Pool) (rid path : String) (js : JsonSchema)
    (rid' q : String) (h : (entryFind pool rid' q).isSome = true) :
    (entryFind (poolUpdateSub pool rid path js) rid' q).isSome = true := by
  rw [entryFind_eq] at h ⊢
  rw [poolFind_poolUpdateSub]
  by_cases hq : rid' = rid
  · rw [if_pos hq]
    cases hf : poolFind pool rid' with
    | none => rw [hf] at h; simp at h
    | some R =>
      rw [hf] at h
      simp only [Option.some_bind] at h
      exact insertIfAbsent_mono _ _ _ _ h
  · rw [if_neg hq]
    exact h

/-- `poolUpdateSub` records the path in the entry under `rid`, when that
entry exists. -/
theorem poolUpdateSub_entry_self (pool : Pool) (rid path : String) (js : JsonSchema)
    (h : (poolFind pool rid).isSome = true) :
    (entryFind (poolUpdateSub pool rid path js) rid path).isSome = true := by
  rw [entryFind_eq]
  rw [poolFind_poolUpdateSub, if_pos rfl]
  cases hf : poolFind pool rid with
  | none => rw [hf] at h; simp at h
  | some R =>
    exact insertIfAbsent_self _ _ _

/-- Pool keys survive `mapSubSchema`. -/
theorem mapSubSchema_keys (js : JsonSchema) (schemaPath rootSchemaID : String) (pool : Pool)
    (k : String) (h : (poolFind pool k).isSome = true) :
    (poolFind (mapSubSchema js schemaPath rootSchemaID pool) k).isSome = true := by
  unfold mapSubSchema
  by_cases hc : schemaPath ≠ "" ∧ rootSchemaID ≠ ""
  · rw [if_pos hc]; exact poolUpdateSub_keys _ _ _ _ _ h
  · rw [if_neg hc]; exact h

/-- Map entries survive `mapSubSchema`. -/
theorem mapSubSchema_entry_mono (js : JsonSchema) (schemaPath rootSchemaID : String)
    (pool : Pool) (rid' q : String) (h : (entryFind pool rid' q).isSome = true) :
    (entryFind (mapSubSchema js schemaPath rootSchemaID pool) rid' q).isSome = true := by
  unfold mapSubSchema
  by_cases hc : schemaPath ≠ "" ∧ rootSchemaID ≠ ""
  · rw [if_pos hc]; exact poolUpdateSub_entry_mono _ _ _ _ _ _ h
  · rw [if_neg hc]; exact h

/-- `mapSubSchema` records the node under its own path whenever the path
and the root id are non-empty and the registry entry exists. -/
theorem mapSubSchema_entry_self (js : JsonSchema) (schemaPath rootSchemaID : String)
    (pool : Pool) (hpool : (poolFind pool rootSchemaID).isSome = true)
    (hpath : ¬schemaPath = "") (hr : ¬rootSchemaID = "") :
    (entryFind (mapSubSchema js schemaPath rootSchemaID pool) rootSchemaID schemaPath).isSome =
      true := by
  unfold mapSubSchema
  rw [if_pos ⟨hpath, hr⟩]
  exact poolUpdateSub_entry_self _ _ _ _ hpool

/-- With an empty root id, `mapSubSchema` records nothing. -/
theorem mapSubSchema_empty_rid (js : JsonSchema) (schemaPath : String) (pool : Pool) :
    mapSubSchema js schemaPath "" pool = pool := by
  unfold mapSubSchema
  simp

/-- A non-empty string has positive length. -/
theorem length_pos_of_ne_empty (s : String) (h : ¬s = "") : 0 < s.length := by
  cases s with
  | mk data =>
    cases data with
    | nil => exact absurd rfl h
    | cons c cs => simp [String.length]

/-- A string of positive length is not empty. -/
theorem ne_empty_of_length_pos (s : String) (h : 0 < s.length) : ¬s = "" := by
  intro heq
  subst heq
  simp at h

/-- Appending a non-empty literal yields a non-empty string. -/
theorem append_lit_ne_empty (s t : String) (ht : 0 < t.length) : ¬(s ++ t) = "" :=
  ne_empty_of_length_pos _ (by rw [String.length_append]; omega)

/-- Appending anything to a non-empty string stays non-empty. -/
theorem append_any_ne_empty (base k : String) (h : ¬base = "") : ¬(base ++ k) = "" :=
  ne_empty_of_length_pos _ (by
    rw [String.length_append]
    have := length_pos_of_ne_empty base h
    omega)

set_option maxHeartbeats 1600000 in
mutual
/-- Pool keys survive a full `scanSchema`. -/
theorem scanSchema_keys (js : JsonSchema) (schemaPath rootSchemaID : String) (pool : Pool)
    (k : String) (h : (poolFind pool k).isSome = true) :
    (poolFind (scanSchema js schemaPath rootSchemaID pool) k).isSome = true := by
  cases js with
  | mk a1 a2 a3 a4 defs props addProps propNames deps patProps itemsF cont addItems a14 a15 a16 a17 anyOfL allOfL oneOfL notO ifO thenO elseO =>
    simp only [scanSchema]
    exact scanIf_keys _ _ _ _ _ _ _ (scanOptChild_keys _ _ _ _ _ (scanIndexedOpt_keys _ _ _ _ _ (scanIndexedOpt_keys _ _ _ _ _ (scanIndexedOpt_keys _ _ _ _ _ (scanOptChild_keys _ _ _ _ _ (scanOptChild_keys _ _ _ _ _ (scanItemsField_keys _ _ _ _ _ (scanKeyedMap_keys _ _ _ _ _ (scanPropsOpt_keys _ _ _ _ _ (scanDeps_keys _ _ _ _ _ (scanOptChild_keys _ _ _ _ _ (scanOptChild_keys _ _ _ _ _ (scanPropsOpt_keys _ _ _ _ _ (mapSubSchema_keys _ _ _ _ _ h))))))))))))))
termination_by sizeOf js

/-- Pool keys survive the optional keyed-map walk. -/
theorem scanPropsOpt_keys (o : OptProps) (base rootSchemaID : String) (pool : Pool)
    (k : String) (h : (poolFind pool k).isSome = true) :
    (poolFind (scanPropsOpt o base rootSchemaID pool) k).isSome = true := by
  cases o with
  | none => simp only [scanPropsOpt]; exact h
  | some p => simp only [scanPropsOpt]; exact scanKeyedMap_keys p _ _ _ _ h
termination_by sizeOf o

/-- Pool keys survive the keyed-map walk. -/
theorem scanKeyedMap_keys (pr : SProps) (base rootSchemaID : String) (pool : Pool)
    (k : String) (h : (poolFind pool k).isSome = true) :
    (poolFind (scanKeyedMap pr base rootSchemaID pool) k).isSome = true := by
  cases pr with
  | nil => simp only [scanKeyedMap]; exact h
  | cons k0 s rest =>
    simp only [scanKeyedMap]
    exact scanKeyedMap_keys rest _ _ _ _ (scanSchema_keys s _ _ _ _ h)
termination_by sizeOf pr

/-- Pool keys survive the `dependencies` walk. -/
theorem scanDeps_keys (d : Deps) (base rootSchemaID : String) (pool : Pool)
    (k : String) (h : (poolFind pool k).isSome = true) :
    (poolFind (scanDeps d base rootSchemaID pool) k).isSome = true := by
  cases d with
  | nil => simp only [scanDeps]; exact h
  | schemaDep k0 s rest =>
    simp only [scanDeps]
    exact scanDeps_keys rest _ _ _ _ (scanSchema_keys s _ _ _ _ h)
  | namesDep k0 ns rest => simp only [scanDeps]; exact scanDeps_keys rest _ _ _ _ h
termination_by sizeOf d

/-- Pool keys survive the `items` walk. -/
theorem scanItemsField_keys (i : ItemsField) (schemaPath rootSchemaID : String) (pool : Pool)
    (k : String) (h : (poolFind pool k).isSome = true) :
    (poolFind (scanItemsField i schemaPath rootSchemaID pool) k).isSome = true := by
  cases i with
  | none => simp only [scanItemsField]; exact h
  | single s => simp only [scanItemsField]; exact scanSchema_keys s _ _ _ _ h
  | list l => simp only [scanItemsField]; exact scanIndexed_keys l _ _ _ _ _ h
termination_by sizeOf i

/-- Pool keys survive the optional indexed walk. -/
theorem scanIndexedOpt_keys (o : OptSList) (base rootSchemaID : String) (pool : Pool)
    (k : String) (h : (poolFind pool k).isSome = true) :
    (poolFind (scanIndexedOpt o base rootSchemaID pool) k).isSome = true := by
  cases o with
  | none => simp only [scanIndexedOpt]; exact h
  | some l => simp only [scanIndexedOpt]; exact scanIndexed_keys l _ _ _ _ _ h
termination_by sizeOf o

/-- Pool keys survive the indexed walk. -/
theorem scanIndexed_keys (l : SList) (base rootSchemaID : String) (index : Nat) (pool : Pool)
    (k : String) (h : (poolFind pool k).isSome = true) :
    (poolFind (scanIndexed l base rootSchemaID index pool) k).isSome = true := by
  cases l with
  | nil => simp only [scanIndexed]; exact h
  | cons s rest =>
    simp only [scanIndexed]
    exact scanIndexed_keys rest _ _ _ _ _ (scanSchema_keys s _ _ _ _ h)
termination_by sizeOf l

/-- Pool keys survive the optional single-child walk. -/
theorem scanOptChild_keys (o : OptSchema) (childPath rootSchemaID : String) (pool : Pool)
    (k : String) (h : (poolFind pool k).isSome = true) :
    (poolFind (scanOptChild o childPath rootSchemaID pool) k).isSome = true := by
  cases o with
  | none => simp only [scanOptChild]; exact h
  | some s => simp only [scanOptChild]; exact scanSchema_keys s _ _ _ _ h
termination_by sizeOf o

/-- Pool keys survive the `if`/`then`/`else` walk. -/
theorem scanIf_keys (ifO thenO elseO : OptSchema) (schemaPath rootSchemaID : String)
    (pool : Pool) (k : String) (h : (poolFind pool k).isSome = true) :
    (poolFind (scanIf ifO thenO elseO schemaPath rootSchemaID pool) k).isSome = true := by
  cases ifO with
  | none => simp only [scanIf]; exact h
  | some i =>
    simp only [scanIf]
    exact scanOptChild_keys elseO _ _ _ _
      (scanOptChild_keys thenO _ _ _ _ (scanSchema_keys i _ _ _ _ h))
termination_by sizeOf ifO + sizeOf thenO + sizeOf elseO
end

set_option maxHeartbeats 1600000 in
mutual
/-- `scanSchema` only adds map entries: every entry present in any root's
map before the scan is present after it. -/
theorem scanSchema_entry_mono (js : JsonSchema) (schemaPath rootSchemaID : String)
    (pool : Pool) (rid' q : String) (h : (entryFind pool rid' q).isSome = true) :
    (entryFind (scanSchema js schemaPath rootSchemaID pool) rid' q).isSome = true := by
  cases js with
  | mk a1 a2 a3 a4 defs props addProps propNames deps patProps itemsF cont addItems a14 a15 a16 a17 anyOfL allOfL oneOfL notO ifO thenO elseO =>
    simp only [scanSchema]
    exact scanIf_entry_mono _ _ _ _ _ _ _ _ (scanOptChild_entry_mono _ _ _ _ _ _ (scanIndexedOpt_entry_mono _ _ _ _ _ _ (scanIndexedOpt_entry_mono _ _ _ _ _ _ (scanIndexedOpt_entry_mono _ _ _ _ _ _ (scanOptChild_entry_mono _ _ _ _ _ _ (scanOptChild_entry_mono _ _ _ _ _ _ (scanItemsField_entry_mono _ _ _ _ _ _ (scanKeyedMap_entry_mono _ _ _ _ _ _ (scanPropsOpt_entry_mono _ _ _ _ _ _ (scanDeps_entry_mono _ _ _ _ _ _ (scanOptChild_entry_mono _ _ _ _ _ _ (scanOptChild_entry_mono _ _ _ _ _ _ (scanPropsOpt_entry_mono _ _ _ _ _ _ (mapSubSchema_entry_mono _ _ _ _ _ _ h))))))))))))))
termination_by sizeOf js

/-- Entry monotonicity of the optional keyed-map walk. -/
theorem scanPropsOpt_entry_mono (o : OptProps) (base rootSchemaID : String) (pool : Pool)
    (rid' q : String) (h : (entryFind pool rid' q).isSome = true) :
    (entryFind (scanPropsOpt o base rootSchemaID pool) rid' q).isSome = true := by
  cases o with
  | none => simp only [scanPropsOpt]; exact h
  | some p => simp only [scanPropsOpt]; exact scanKeyedMap_entry_mono p _ _ _ _ _ h
termination_by sizeOf o

/-- Entry monotonicity of the keyed-map walk. -/
theorem scanKeyedMap_entry_mono (pr : SProps) (base rootSchemaID : String) (pool : Pool)
    (rid' q : String) (h : (entryFind pool rid' q).isSome = true) :
    (entryFind (scanKeyedMap pr base rootSchemaID pool) rid' q).isSome = true := by
  cases pr with
  | nil => simp only [scanKeyedMap]; exact h
  | cons k0 s rest =>
    simp only [scanKeyedMap]
    exact scanKeyedMap_entry_mono rest _ _ _ _ _ (scanSchema_entry_mono s _ _ _ _ _ h)
termination_by sizeOf pr

/-- Entry monotonicity of the `dependencies` walk. -/
theorem scanDeps_entry_mono (d : Deps) (base rootSchemaID : String) (pool : Pool)
    (rid' q : String) (h : (entryFind pool rid' q).isSome = true) :
    (entryFind (scanDeps d base rootSchemaID pool) rid' q).isSome = true := by
  cases d with
  | nil => simp only [scanDeps]; exact h
  | schemaDep k0 s rest =>
    simp only [scanDeps]
    exact scanDeps_entry_mono rest _ _ _ _ _ (scanSchema_entry_mono s _ _ _ _ _ h)
  | namesDep k0 ns rest => simp only [scanDeps]; exact scanDeps_entry_mono rest _ _ _ _ _ h
termination_by sizeOf d

/-- Entry monotonicity of the `items` walk. -/
theorem scanItemsField_entry_mono (i : ItemsField) (schemaPath rootSchemaID : String)
    (pool : Pool) (rid' q : String) (h : (entryFind pool rid' q).isSome = true) :
    (entryFind (scanItemsField i schemaPath rootSchemaID pool) rid' q).isSome = true := by
  cases i with
  | none => simp only [scanItemsField]; exact h
  | single s => simp only [scanItemsField]; exact scanSchema_entry_mono s _ _ _ _ _ h
  | list l => simp only [scanItemsField]; exact scanIndexed_entry_mono l _ _ _ _ _ _ h
termination_by sizeOf i

/-- Entry monotonicity of the optional indexed walk. -/
theorem scanIndexedOpt_entry_mono (o : OptSList) (base rootSchemaID : String) (pool : Pool)
    (rid' q : String) (h : (entryFind pool rid' q).isSome = true) :
    (entryFind (scanIndexedOpt o base rootSchemaID pool) rid' q).isSome = true := by
  cases o with
  | none => simp only [scanIndexedOpt]; exact h
  | some l => simp only [scanIndexedOpt]; exact scanIndexed_entry_mono l _ _ _ _ _ _ h
termination_by sizeOf o

/-- Entry monotonicity of the indexed walk. -/
theorem scanIndexed_entry_mono (l : SList) (base rootSchemaID : String) (index : Nat)
    (pool : Pool) (rid' q : String) (h : (entryFind pool rid' q).isSome = true) :
    (entryFind (scanIndexed l base rootSchemaID index pool) rid' q).isSome = true := by
  cases l with
  | nil => simp only [scanIndexed]; exact h
  | cons s rest =>
    simp only [scanIndexed]
    exact scanIndexed_entry_mono rest _ _ _ _ _ _ (scanSchema_entry_mono s _ _ _ _ _ h)
termination_by sizeOf l

/-- Entry monotonicity of the optional single-child walk. -/
theorem scanOptChild_entry_mono (o : OptSchema) (childPath rootSchemaID : String)
    (pool : Pool) (rid' q : String) (h : (entryFind pool rid' q).isSome = true) :
    (entryFind (scanOptChild o childPath rootSchemaID pool) rid' q).isSome = true := by
  cases o with
  | none => simp only [scanOptChild]; exact h
  | some s => simp only [scanOptChild]; exact scanSchema_entry_mono s _ _ _ _ _ h
termination_by sizeOf o

/-- Entry monotonicity of the `if`/`then`/`else` walk. -/
theorem scanIf_entry_mono (ifO thenO elseO : OptSchema) (schemaPath rootSchemaID : String)
    (pool : Pool) (rid' q : String) (h : (entryFind pool rid' q).isSome = true) :
    (entryFind (scanIf ifO thenO elseO schemaPath rootSchemaID pool) rid' q).isSome = true := by
  cases ifO with
  | none => simp only [scanIf]; exact h
  | some i =>
    simp only [scanIf]
    exact scanOptChild_entry_mono elseO _ _ _ _ _
      (scanOptChild_entry_mono thenO _ _ _ _ _ (scanSchema_entry_mono i _ _ _ _ _ h))
termination_by sizeOf ifO + sizeOf thenO + sizeOf elseO
end

set_option maxHeartbeats 1600000 in
/-- A scanned node is itself recorded under its own (non-empty) path in
the registry entry for a non-empty root id: `mapSubSchema` inserts it
first and the child walks only add entries. -/
theorem scanSchema_self (js : JsonSchema) (schemaPath rootSchemaID : String) (pool : Pool)
    (hpool : (poolFind pool rootSchemaID).isSome = true)
    (hpath : ¬schemaPath = "") (hr : ¬rootSchemaID = "") :
    (entryFind (scanSchema js schemaPath rootSchemaID pool) rootSchemaID schemaPath).isSome =
      true := by
  cases js with
  | mk a1 a2 a3 a4 defs props addProps propNames deps patProps itemsF cont addItems a14 a15 a16 a17 anyOfL allOfL oneOfL notO ifO thenO elseO =>
    simp only [scanSchema]
    exact scanIf_entry_mono _ _ _ _ _ _ _ _ (scanOptChild_entry_mono _ _ _ _ _ _ (scanIndexedOpt_entry_mono _ _ _ _ _ _ (scanIndexedOpt_entry_mono _ _ _ _ _ _ (scanIndexedOpt_entry_mono _ _ _ _ _ _ (scanOptChild_entry_mono _ _ _ _ _ _ (scanOptChild_entry_mono _ _ _ _ _ _ (scanItemsField_entry_mono _ _ _ _ _ _ (scanKeyedMap_entry_mono _ _ _ _ _ _ (scanPropsOpt_entry_mono _ _ _ _ _ _ (scanDeps_entry_mono _ _ _ _ _ _ (scanOptChild_entry_mono _ _ _ _ _ _ (scanOptChild_entry_mono _ _ _ _ _ _ (scanPropsOpt_entry_mono _ _ _ _ _ _ (mapSubSchema_entry_self _ _ _ _ hpool hpath hr))))))))))))))

set_option maxHeartbeats 1600000 in
mutual
/-- Coverage: with a non-empty root id whose registry entry exists, every
path the compiler's walk visits from a node is present in that entry's
map after scanning the node. -/
theorem scanSchema_covers (js : JsonSchema) (schemaPath rootSchemaID : String) (pool : Pool)
    (p : String) (hr : ¬rootSchemaID = "")
    (hpool : (poolFind pool rootSchemaID).isSome = true)
    (hp : p ∈ walkedPaths js schemaPath) :
    (entryFind (scanSchema js schemaPath rootSchemaID pool) rootSchemaID p).isSome = true := by
  cases js with
  | mk a1 a2 a3 a4 defs props addProps propNames deps patProps itemsF cont addItems a14 a15 a16 a17 anyOfL allOfL oneOfL notO ifO thenO elseO =>
    simp only [walkedPaths] at hp
    simp only [scanSchema]
    rcases List.mem_append.mp hp with hL13 | hB14
    rcases List.mem_append.mp hL13 with hL12 | hB13
    rcases List.mem_append.mp hL12 with hL11 | hB12
    rcases List.mem_append.mp hL11 with hL10 | hB11
    rcases List.mem_append.mp hL10 with hL9 | hB10
    rcases List.mem_append.mp hL9 with hL8 | hB9
    rcases List.mem_append.mp hL8 with hL7 | hB8
    rcases List.mem_append.mp hL7 with hL6 | hB7
    rcases List.mem_append.mp hL6 with hL5 | hB6
    rcases List.mem_append.mp hL5 with hL4 | hB5
    rcases List.mem_append.mp hL4 with hL3 | hB4
    rcases List.mem_append.mp hL3 with hL2 | hB3
    rcases List.mem_append.mp hL2 with hB1 | hB2
    · exact scanIf_entry_mono _ _ _ _ _ _ _ _ (scanOptChild_entry_mono _ _ _ _ _ _ (scanIndexedOpt_entry_mono _ _ _ _ _ _ (scanIndexedOpt_entry_mono _ _ _ _ _ _ (scanIndexedOpt_entry_mono _ _ _ _ _ _ (scanOptChild_entry_mono _ _ _ _ _ _ (scanOptChild_entry_mono _ _ _ _ _ _ (scanItemsField_entry_mono _ _ _ _ _ _ (scanKeyedMap_entry_mono _ _ _ _ _ _ (scanPropsOpt_entry_mono _ _ _ _ _ _ (scanDeps_entry_mono _ _ _ _ _ _ (scanOptChild_entry_mono _ _ _ _ _ _ (scanOptChild_entry_mono _ _ _ _ _ _ (scanPropsOpt_covers _ _ _ _ _ hr (mapSubSchema_keys _ _ _ _ _ hpool) (append_lit_ne_empty schemaPath "/properties/" (by decide)) hB1)))))))))))))
    · exact scanIf_entry_mono _ _ _ _ _ _ _ _ (scanOptChild_entry_mono _ _ _ _ _ _ (scanIndexedOpt_entry_mono _ _ _ _ _ _ (scanIndexedOpt_entry_mono _ _ _ _ _ _ (scanIndexedOpt_entry_mono _ _ _ _ _ _ (scanOptChild_entry_mono _ _ _ _ _ _ (scanOptChild_entry_mono _ _ _ _ _ _ (scanItemsField_entry_mono _ _ _ _ _ _ (scanKeyedMap_entry_mono _ _ _ _ _ _ (scanPropsOpt_entry_mono _ _ _ _ _ _ (scanDeps_entry_mono _ _ _ _ _ _ (scanOptChild_entry_mono _ _ _ _ _ _ (scanOptChild_covers _ _ _ _ _ hr (scanPropsOpt_keys _ _ _ _ _ (mapSubSchema_keys _ _ _ _ _ hpool)) (append_lit_ne_empty schemaPath "/additionalProperties" (by decide)) hB2))))))))))))
    · exact scanIf_entry_mono _ _ _ _ _ _ _ _ (scanOptChild_entry_mono _ _ _ _ _ _ (scanIndexedOpt_entry_mono _ _ _ _ _ _ (scanIndexedOpt_entry_mono _ _ _ _ _ _ (scanIndexedOpt_entry_mono _ _ _ _ _ _ (scanOptChild_entry_mono _ _ _ _ _ _ (scanOptChild_entry_mono _ _ _ _ _ _ (scanItemsField_entry_mono _ _ _ _ _ _ (scanKeyedMap_entry_mono _ _ _ _ _ _ (scanPropsOpt_entry_mono _ _ _ _ _ _ (scanDeps_entry_mono _ _ _ _ _ _ (scanOptChild_covers _ _ _ _ _ hr (scanOptChild_keys _ _ _ _ _ (scanPropsOpt_keys _ _ _ _ _ (mapSubSchema_keys _ _ _ _ _ hpool))) (append_lit_ne_empty schemaPath "/propertyNames" (by decide)) hB3)))))))))))
    · exact scanIf_entry_mono _ _ _ _ _ _ _ _ (scanOptChild_entry_mono _ _ _ _ _ _ (scanIndexedOpt_entry_mono _ _ _ _ _ _ (scanIndexedOpt_entry_mono _ _ _ _ _ _ (scanIndexedOpt_entry_mono _ _ _ _ _ _ (scanOptChild_entry_mono _ _ _ _ _ _ (scanOptChild_entry_mono _ _ _ _ _ _ (scanItemsField_entry_mono _ _ _ _ _ _ (scanKeyedMap_entry_mono _ _ _ _ _ _ (scanPropsOpt_entry_mono _ _ _ _ _ _ (scanDeps_covers _ _ _ _ _ hr (scanOptChild_keys _ _ _ _ _ (scanOptChild_keys _ _ _ _ _ (scanPropsOpt_keys _ _ _ _ _ (mapSubSchema_keys _ _ _ _ _ hpool)))) (append_lit_ne_empty schemaPath "/dependencies" (by decide)) hB4))))))))))
    · exact scanIf_entry_mono _ _ _ _ _ _ _ _ (scanOptChild_entry_mono _ _ _ _ _ _ (scanIndexedOpt_entry_mono _ _ _ _ _ _ (scanIndexedOpt_entry_mono _ _ _ _ _ _ (scanIndexedOpt_entry_mono _ _ _ _ _ _ (scanOptChild_entry_mono _ _ _ _ _ _ (scanOptChild_entry_mono _ _ _ _ _ _ (scanItemsField_entry_mono _ _ _ _ _ _ (scanKeyedMap_entry_mono _ _ _ _ _ _ (scanPropsOpt_covers _ _ _ _ _ hr (scanDeps_keys _ _ _ _ _ (scanOptChild_keys _ _ _ _ _ (scanOptChild_keys _ _ _ _ _ (scanPropsOpt_keys _ _ _ _ _ (mapSubSchema_keys _ _ _ _ _ hpool))))) (append_lit_ne_empty schemaPath "/patternProperties/" (by decide)) hB5)))))))))
    · exact scanIf_entry_mono _ _ _ _ _ _ _ _ (scanOptChild_entry_mono _ _ _ _ _ _ (scanIndexedOpt_entry_mono _ _ _ _ _ _ (scanIndexedOpt_entry_mono _ _ _ _ _ _ (scanIndexedOpt_entry_mono _ _ _ _ _ _ (scanOptChild_entry_mono _ _ _ _ _ _ (scanOptChild_entry_mono _ _ _ _ _ _ (scanItemsField_entry_mono _ _ _ _ _ _ (scanKeyedMap_covers _ _ _ _ _ hr (scanPropsOpt_keys _ _ _ _ _ (scanDeps_keys _ _ _ _ _ (scanOptChild_keys _ _ _ _ _ (scanOptChild_keys _ _ _ _ _ (scanPropsOpt_keys _ _ _ _ _ (mapSubSchema_keys _ _ _ _ _ hpool)))))) (append_lit_ne_empty schemaPath "/definitions/" (by decide)) hB6))))))))
    · exact scanIf_entry_mono _ _ _ _ _ _ _ _ (scanOptChild_entry_mono _ _ _ _ _ _ (scanIndexedOpt_entry_mono _ _ _ _ _ _ (scanIndexedOpt_entry_mono _ _ _ _ _ _ (scanIndexedOpt_entry_mono _ _ _ _ _ _ (scanOptChild_entry_mono _ _ _ _ _ _ (scanOptChild_entry_mono _ _ _ _ _ _ (scanItemsField_covers _ _ _ _ _ hr (scanKeyedMap_keys _ _ _ _ _ (scanPropsOpt_keys _ _ _ _ _ (scanDeps_keys _ _ _ _ _ (scanOptChild_keys _ _ _ _ _ (scanOptChild_keys _ _ _ _ _ (scanPropsOpt_keys _ _ _ _ _ (mapSubSchema_keys _ _ _ _ _ hpool))))))) hB7)))))))
    · exact scanIf_entry_mono _ _ _ _ _ _ _ _ (scanOptChild_entry_mono _ _ _ _ _ _ (scanIndexedOpt_entry_mono _ _ _ _ _ _ (scanIndexedOpt_entry_mono _ _ _ _ _ _ (scanIndexedOpt_entry_mono _ _ _ _ _ _ (scanOptChild_entry_mono _ _ _ _ _ _ (scanOptChild_covers _ _ _ _ _ hr (scanItemsField_keys _ _ _ _ _ (scanKeyedMap_keys _ _ _ _ _ (scanPropsOpt_keys _ _ _ _ _ (scanDeps_keys _ _ _ _ _ (scanOptChild_keys _ _ _ _ _ (scanOptChild_keys _ _ _ _ _ (scanPropsOpt_keys _ _ _ _ _ (mapSubSchema_keys _ _ _ _ _ hpool)))))))) (append_lit_ne_empty schemaPath "/additionalItems" (by decide)) hB8))))))
    · exact scanIf_entry_mono _ _ _ _ _ _ _ _ (scanOptChild_entry_mono _ _ _ _ _ _ (scanIndexedOpt_entry_mono _ _ _ _ _ _ (scanIndexedOpt_entry_mono _ _ _ _ _ _ (scanIndexedOpt_entry_mono _ _ _ _ _ _ (scanOptChild_covers _ _ _ _ _ hr (scanOptChild_keys _ _ _ _ _ (scanItemsField_keys _ _ _ _ _ (scanKeyedMap_keys _ _ _ _ _ (scanPropsOpt_keys _ _ _ _ _ (scanDeps_keys _ _ _ _ _ (scanOptChild_keys _ _ _ _ _ (scanOptChild_keys _ _ _ _ _ (scanPropsOpt_keys _ _ _ _ _ (mapSubSchema_keys _ _ _ _ _ hpool))))))))) (append_lit_ne_empty schemaPath "/contains" (by decide)) hB9)))))
    · exact scanIf_entry_mono _ _ _ _ _ _ _ _ (scanOptChild_entry_mono _ _ _ _ _ _ (scanIndexedOpt_entry_mono _ _ _ _ _ _ (scanIndexedOpt_entry_mono _ _ _ _ _ _ (scanIndexedOpt_covers _ _ _ _ _ hr (scanOptChild_keys _ _ _ _ _ (scanOptChild_keys _ _ _ _ _ (scanItemsField_keys _ _ _ _ _ (scanKeyedMap_keys _ _ _ _ _ (scanPropsOpt_keys _ _ _ _ _ (scanDeps_keys _ _ _ _ _ (scanOptChild_keys _ _ _ _ _ (scanOptChild_keys _ _ _ _ _ (scanPropsOpt_keys _ _ _ _ _ (mapSubSchema_keys _ _ _ _ _ hpool)))))))))) (append_lit_ne_empty schemaPath "/anyOf/" (by decide)) hB10))))
    · exact scanIf_entry_mono _ _ _ _ _ _ _ _ (scanOptChild_entry_mono _ _ _ _ _ _ (scanIndexedOpt_entry_mono _ _ _ _ _ _ (scanIndexedOpt_covers _ _ _ _ _ hr (scanIndexedOpt_keys _ _ _ _ _ (scanOptChild_keys _ _ _ _ _ (scanOptChild_keys _ _ _ _ _ (scanItemsField_keys _ _ _ _ _ (scanKeyedMap_keys _ _ _ _ _ (scanPropsOpt_keys _ _ _ _ _ (scanDeps_keys _ _ _ _ _ (scanOptChild_keys _ _ _ _ _ (scanOptChild_keys _ _ _ _ _ (scanPropsOpt_keys _ _ _ _ _ (mapSubSchema_keys _ _ _ _ _ hpool))))))))))) (append_lit_ne_empty schemaPath "/allOf/" (by decide)) hB11)))
    · exact scanIf_entry_mono _ _ _ _ _ _ _ _ (scanOptChild_entry_mono _ _ _ _ _ _ (scanIndexedOpt_covers _ _ _ _ _ hr (scanIndexedOpt_keys _ _ _ _ _ (scanIndexedOpt_keys _ _ _ _ _ (scanOptChild_keys _ _ _ _ _ (scanOptChild_keys _ _ _ _ _ (scanItemsField_keys _ _ _ _ _ (scanKeyedMap_keys _ _ _ _ _ (scanPropsOpt_keys _ _ _ _ _ (scanDeps_keys _ _ _ _ _ (scanOptChild_keys _ _ _ _ _ (scanOptChild_keys _ _ _ _ _ (scanPropsOpt_keys _ _ _ _ _ (mapSubSchema_keys _ _ _ _ _ hpool)))))))))))) (append_lit_ne_empty schemaPath "/oneOf/" (by decide)) hB12))
    · exact scanIf_entry_mono _ _ _ _ _ _ _ _ (scanOptChild_covers _ _ _ _ _ hr (scanIndexedOpt_keys _ _ _ _ _ (scanIndexedOpt_keys _ _ _ _ _ (scanIndexedOpt_keys _ _ _ _ _ (scanOptChild_keys _ _ _ _ _ (scanOptChild_keys _ _ _ _ _ (scanItemsField_keys _ _ _ _ _ (scanKeyedMap_keys _ _ _ _ _ (scanPropsOpt_keys _ _ _ _ _ (scanDeps_keys _ _ _ _ _ (scanOptChild_keys _ _ _ _ _ (scanOptChild_keys _ _ _ _ _ (scanPropsOpt_keys _ _ _ _ _ (mapSubSchema_keys _ _ _ _ _ hpool))))))))))))) (append_lit_ne_empty schemaPath "/not" (by decide)) hB13)
    · exact scanIf_covers _ _ _ _ _ _ _ hr (scanOptChild_keys _ _ _ _ _ (scanIndexedOpt_keys _ _ _ _ _ (scanIndexedOpt_keys _ _ _ _ _ (scanIndexedOpt_keys _ _ _ _ _ (scanOptChild_keys _ _ _ _ _ (scanOptChild_keys _ _ _ _ _ (scanItemsField_keys _ _ _ _ _ (scanKeyedMap_keys _ _ _ _ _ (scanPropsOpt_keys _ _ _ _ _ (scanDeps_keys _ _ _ _ _ (scanOptChild_keys _ _ _ _ _ (scanOptChild_keys _ _ _ _ _ (scanPropsOpt_keys _ _ _ _ _ (mapSubSchema_keys _ _ _ _ _ hpool)))))))))))))) hB14
termination_by sizeOf js

/-- Coverage of the optional keyed-map walk. -/
theorem scanPropsOpt_covers (o : OptProps) (base rootSchemaID : String) (pool : Pool)
    (p : String) (hr : ¬rootSchemaID = "")
    (hpool : (poolFind pool rootSchemaID).isSome = true) (hbase : ¬base = "")
    (hp : p ∈ walkedPropsOpt o base) :
    (entryFind (scanPropsOpt o base rootSchemaID pool) rootSchemaID p).isSome = true := by
  cases o with
  | none => simp [walkedPropsOpt] at hp
  | some pr =>
    simp only [walkedPropsOpt] at hp
    simp only [scanPropsOpt]
    exact scanKeyedMap_covers pr base rootSchemaID pool p hr hpool hbase hp
termination_by sizeOf o

/-- Coverage of the keyed-map walk: each child is recorded under its
canonical path and its own walked paths are covered recursively. -/
theorem scanKeyedMap_covers (pr : SProps) (base rootSchemaID : String) (pool : Pool)
    (p : String) (hr : ¬rootSchemaID = "")
    (hpool : (poolFind pool rootSchemaID).isSome = true) (hbase : ¬base = "")
    (hp : p ∈ walkedKeyed pr base) :
    (entryFind (scanKeyedMap pr base rootSchemaID pool) rootSchemaID p).isSome = true := by
  cases pr with
  | nil => simp [walkedKeyed] at hp
  | cons k s rest =>
    simp only [walkedKeyed] at hp
    simp only [scanKeyedMap]
    rcases List.mem_append.mp hp with hhead | htail
    · rcases List.mem_cons.mp hhead with heq | hsub
      · subst heq
        exact scanKeyedMap_entry_mono rest _ _ _ _ _
          (scanSchema_self s (base ++ k) rootSchemaID pool hpool
            (append_any_ne_empty base k hbase) hr)
      · exact scanKeyedMap_entry_mono rest _ _ _ _ _
          (scanSchema_covers s (base ++ k) rootSchemaID pool p hr hpool hsub)
    · exact scanKeyedMap_covers rest base rootSchemaID _ p hr
        (scanSchema_keys s _ _ _ _ hpool) hbase htail
termination_by sizeOf pr

/-- Coverage of the `dependencies` walk (schema-valued entries). -/
theorem scanDeps_covers (d : Deps) (base rootSchemaID : String) (pool : Pool)
    (p : String) (hr : ¬rootSchemaID = "")
    (hpool : (poolFind pool rootSchemaID).isSome = true) (hbase : ¬base = "")
    (hp : p ∈ walkedDeps d base) :
    (entryFind (scanDeps d base rootSchemaID pool) rootSchemaID p).isSome = true := by
  cases d with
  | nil => simp [walkedDeps] at hp
  | schemaDep k s rest =>
    simp only [walkedDeps] at hp
    simp only [scanDeps]
    rcases List.mem_append.mp hp with hhead | htail
    · rcases List.mem_cons.mp hhead with heq | hsub
      · subst heq
        exact scanDeps_entry_mono rest _ _ _ _ _
          (scanSchema_self s (base ++ k) rootSchemaID pool hpool
            (append_any_ne_empty base k hbase) hr)
      · exact scanDeps_entry_mono rest _ _ _ _ _
          (scanSchema_covers s (base ++ k) rootSchemaID pool p hr hpool hsub)
    · exact scanDeps_covers rest base rootSchemaID _ p hr
        (scanSchema_keys s _ _ _ _ hpool) hbase htail
  | namesDep k ns rest =>
    simp only [walkedDeps] at hp
    simp only [scanDeps]
    exact scanDeps_covers rest base rootSchemaID pool p hr hpool hbase hp
termination_by sizeOf d

/-- Coverage of the `items` walk. -/
theorem scanItemsField_covers (i : ItemsField) (schemaPath rootSchemaID : String)
    (pool : Pool) (p : String) (hr : ¬rootSchemaID = "")
    (hpool : (poolFind pool rootSchemaID).isSome = true)
    (hp : p ∈ walkedItemsField i schemaPath) :
    (entryFind (scanItemsField i schemaPath rootSchemaID pool) rootSchemaID p).isSome =
      true := by
  cases i with
  | none => simp [walkedItemsField] at hp
  | single s =>
    simp only [walkedItemsField] at hp
    simp only [scanItemsField]
    rcases List.mem_cons.mp hp with heq | hsub
    · subst heq
      exact scanSchema_self s _ rootSchemaID pool hpool
        (append_lit_ne_empty schemaPath "/items" (by decide)) hr
    · exact scanSchema_covers s (schemaPath ++ "/items") rootSchemaID pool p hr hpool hsub
  | list l =>
    simp only [walkedItemsField] at hp
    simp only [scanItemsField]
    exact scanIndexed_covers l (schemaPath ++ "/items") rootSchemaID 0 pool p hr hpool
      (append_lit_ne_empty schemaPath "/items" (by decide)) hp
termination_by sizeOf i

/-- Coverage of the optional indexed walk. -/
theorem scanIndexedOpt_covers (o : OptSList) (base rootSchemaID : String) (pool : Pool)
    (p : String) (hr : ¬rootSchemaID = "")
    (hpool : (poolFind pool rootSchemaID).isSome = true) (hbase : ¬base = "")
    (hp : p ∈ walkedIndexedOpt o base) :
    (entryFind (scanIndexedOpt o base rootSchemaID pool) rootSchemaID p).isSome = true := by
  cases o with
  | none => simp [walkedIndexedOpt] at hp
  | some l =>
    simp only [walkedIndexedOpt] at hp
    simp only [scanIndexedOpt]
    exact scanIndexed_covers l base rootSchemaID 0 pool p hr hpool hbase hp
termination_by sizeOf o

/-- Coverage of the indexed walk. -/
theorem scanIndexed_covers (l : SList) (base rootSchemaID : String) (index : Nat)
    (pool : Pool) (p : String) (hr : ¬rootSchemaID = "")
    (hpool : (poolFind pool rootSchemaID).isSome = true) (hbase : ¬base = "")
    (hp : p ∈ walkedIndexed l base index) :
    (entryFind (scanIndexed l base rootSchemaID index pool) rootSchemaID p).isSome = true := by
  cases l with
  | nil => simp [walkedIndexed] at hp
  | cons s rest =>
    simp only [walkedIndexed] at hp
    simp only [scanIndexed]
    rcases List.mem_append.mp hp with hhead | htail
    · rcases List.mem_cons.mp hhead with heq | hsub
      · subst heq
        exact scanIndexed_entry_mono rest _ _ _ _ _ _
          (scanSchema_self s (base ++ toString index) rootSchemaID pool hpool
            (append_any_ne_empty base (toString index) hbase) hr)
      · exact scanIndexed_entry_mono rest _ _ _ _ _ _
          (scanSchema_covers s (base ++ toString index) rootSchemaID pool p hr hpool hsub)
    · exact scanIndexed_covers rest base rootSchemaID (index + 1) _ p hr
        (scanSchema_keys s _ _ _ _ hpool) hbase htail
termination_by sizeOf l

/-- Coverage of the optional single-child walk. -/
theorem scanOptChild_covers (o : OptSchema) (childPath rootSchemaID : String) (pool : Pool)
    (p : String) (hr : ¬rootSchemaID = "")
    (hpool : (poolFind pool rootSchemaID).isSome = true) (hchild : ¬childPath = "")
    (hp : p ∈ walkedOptChild o childPath) :
    (entryFind (scanOptChild o childPath rootSchemaID pool) rootSchemaID p).isSome = true := by
  cases o with
  | none => simp [walkedOptChild] at hp
  | some s =>
    simp only [walkedOptChild] at hp
    simp only [scanOptChild]
    rcases List.mem_cons.mp hp with heq | hsub
    · rw [heq]
      exact scanSchema_self s childPath rootSchemaID pool hpool hchild hr
    · exact scanSchema_covers s childPath rootSchemaID pool p hr hpool hsub
termination_by sizeOf o

/-- Coverage of the `if`/`then`/`else` walk: when `if` is present its
child, the sibling `then` child and the sibling `else` child are all
recorded. -/
theorem scanIf_covers (ifO thenO elseO : OptSchema) (schemaPath rootSchemaID : String)
    (pool : Pool) (p : String) (hr : ¬rootSchemaID = "")
    (hpool : (poolFind pool rootSchemaID).isSome = true)
    (hp : p ∈ walkedIfPaths ifO thenO elseO schemaPath) :
    (entryFind (scanIf ifO thenO elseO schemaPath rootSchemaID pool) rootSchemaID p).isSome =
      true := by
  cases ifO with
  | none => simp [walkedIfPaths] at hp
  | some i =>
    simp only [walkedIfPaths] at hp
    simp only [scanIf]
    rcases List.mem_append.mp hp with hAB | hC
    · rcases List.mem_append.mp hAB with hA | hB
      · rcases List.mem_cons.mp hA with heq | hsub
        · subst heq
          exact scanOptChild_entry_mono elseO _ _ _ _ _
            (scanOptChild_entry_mono thenO _ _ _ _ _
              (scanSchema_self i _ rootSchemaID pool hpool
                (append_lit_ne_empty schemaPath "/if" (by decide)) hr))
        · exact scanOptChild_entry_mono elseO _ _ _ _ _
            (scanOptChild_entry_mono thenO _ _ _ _ _
              (scanSchema_covers i (schemaPath ++ "/if") rootSchemaID pool p hr hpool hsub))
      · exact scanOptChild_entry_mono elseO _ _ _ _ _
          (scanOptChild_covers thenO _ rootSchemaID _ p hr
            (scanSchema_keys i _ _ _ _ hpool)
            (append_lit_ne_empty schemaPath "/then" (by decide)) hB)
    · exact scanOptChild_covers elseO _ rootSchemaID _ p hr
        (scanOptChild_keys thenO _ _ _ _ (scanSchema_keys i _ _ _ _ hpool))
        (append_lit_ne_empty schemaPath "/else" (by decide)) hC
termination_by sizeOf ifO + sizeOf thenO + sizeOf elseO
end

set_option maxHeartbeats 1600000 in
mutual
/-- With an empty root id (an anonymous root), `scanSchema` records
nothing: the registry is returned unchanged. -/
theorem scanSchema_anon (js : JsonSchema) (schemaPath : String) (pool : Pool) :
    scanSchema js schemaPath "" pool = pool := by
  cases js with
  | mk a1 a2 a3 a4 defs props addProps propNames deps patProps itemsF cont addItems a14 a15 a16 a17 anyOfL allOfL oneOfL notO ifO thenO elseO =>
    simp only [scanSchema]
    rw [scanIf_anon, scanOptChild_anon, scanIndexedOpt_anon, scanIndexedOpt_anon,
      scanIndexedOpt_anon, scanOptChild_anon, scanOptChild_anon, scanItemsField_anon,
      scanKeyedMap_anon, scanPropsOpt_anon, scanDeps_anon, scanOptChild_anon,
      scanOptChild_anon, scanPropsOpt_anon, mapSubSchema_empty_rid]
termination_by sizeOf js

/-- Anonymous-root no-op for the optional keyed-map walk. -/
theorem scanPropsOpt_anon (o : OptProps) (base : String) (pool : Pool) :
    scanPropsOpt o base "" pool = pool := by
  cases o with
  | none => simp only [scanPropsOpt]
  | some p => simp only [scanPropsOpt]; exact scanKeyedMap_anon p base pool
termination_by sizeOf o

/-- Anonymous-root no-op for the keyed-map walk. -/
theorem scanKeyedMap_anon (pr : SProps) (base : String) (pool : Pool) :
    scanKeyedMap pr base "" pool = pool := by
  cases pr with
  | nil => simp only [scanKeyedMap]
  | cons k s rest =>
    simp only [scanKeyedMap]
    rw [scanSchema_anon]
    exact scanKeyedMap_anon rest base pool
termination_by sizeOf pr

/-- Anonymous-root no-op for the `dependencies` walk. -/
theorem scanDeps_anon (d : Deps) (base : String) (pool : Pool) :
    scanDeps d base "" pool = pool := by
  cases d with
  | nil => simp only [scanDeps]
  | schemaDep k s rest =>
    simp only [scanDeps]
    rw [scanSchema_anon]
    exact scanDeps_anon rest base pool
  | namesDep k ns rest => simp only [scanDeps]; exact scanDeps_anon rest base pool
termination_by sizeOf d

/-- Anonymous-root no-op for the `items` walk. -/
theorem scanItemsField_anon (i : ItemsField) (schemaPath : String) (pool : Pool) :
    scanItemsField i schemaPath "" pool = pool := by
  cases i with
  | none => simp only [scanItemsField]
  | single s => simp only [scanItemsField]; exact scanSchema_anon s _ pool
  | list l => simp only [scanItemsField]; exact scanIndexed_anon l _ 0 pool
termination_by sizeOf i

/-- Anonymous-root no-op for the optional indexed walk. -/
theorem scanIndexedOpt_anon (o : OptSList) (base : String) (pool : Pool) :
    scanIndexedOpt o base "" pool = pool := by
  cases o with
  | none => simp only [scanIndexedOpt]
  | some l => simp only [scanIndexedOpt]; exact scanIndexed_anon l base 0 pool
termination_by sizeOf o

/-- Anonymous-root no-op for the indexed walk. -/
theorem scanIndexed_anon (l : SList) (base : String) (index : Nat) (pool : Pool) :
    scanIndexed l base "" index pool = pool := by
  cases l with
  | nil => simp only [scanIndexed]
  | cons s rest =>
    simp only [scanIndexed]
    rw [scanSchema_anon]
    exact scanIndexed_anon rest base (index + 1) pool
termination_by sizeOf l

/-- Anonymous-root no-op for the optional single-child walk. -/
theorem scanOptChild_anon (o : OptSchema) (childPath : String) (pool : Pool) :
    scanOptChild o childPath "" pool = pool := by
  cases o with
  | none => simp only [scanOptChild]
  | some s => simp only [scanOptChild]; exact scanSchema_anon s childPath pool
termination_by sizeOf o

/-- Anonymous-root no-op for the `if`/`then`/`else` walk. -/
theorem scanIf_anon (ifO thenO elseO : OptSchema) (schemaPath : String) (pool : Pool) :
    scanIf ifO thenO elseO schemaPath "" pool = pool := by
  cases ifO with
  | none => simp only [scanIf]
  | some i =>
    simp only [scanIf]
    rw [scanSchema_anon, scanOptChild_anon, scanOptChild_anon]
termination_by sizeOf ifO + sizeOf thenO + sizeOf elseO
end

/-- C3 counterexample: two roots refute the claim as stated.  First, the
root `\x7b"$id":"R","then":\x7b\x7d\x7d`: the claim's walk (through the keyword
`then`, spec section 4.5 lists the canonical path `/then`) reaches the
`then` subschema, yet after scanning, the registry entry "R" has no entry
for `/then` — the compiler scans `then`/`else` only when a sibling `if` is
present.  Second, the anonymous root `\x7b"properties":\x7b"a":\x7b\x7d\x7d\x7d`: the walk
reaches `/properties/a`, but with an empty root id the scan records
nothing at all. -/
theorem C3_counterexample :
    entryFind (scanSchema thenOnlySchema "" "R" poolR) "R" "/then" = Option.none ∧
    "/then" ∈ subPaths thenOnlySchema "" ∧
    scanSchema anonPropsSchema "" "" poolAnon = poolAnon ∧
    "/properties/a" ∈ subPaths anonPropsSchema "" := by
  refine ⟨?_, ?_, scanSchema_anon anonPropsSchema "" poolAnon, ?_⟩
  · simp [thenOnlySchema, poolR, scanSchema, scanIf, scanOptChild, scanIndexedOpt,
      scanIndexed, scanKeyedMap, scanPropsOpt, scanDeps, scanItemsField, mapSubSchema,
      entryFind, poolFind, indexFind]
  · simp [thenOnlySchema, subPaths, subPathsPropsOpt, subPathsKeyed, subPathsDeps,
      subPathsItemsField, subPathsIndexedOpt, subPathsIndexed, subPathsOptChild,
      emptyJsonSchema]
  · simp [anonPropsSchema, subPaths, subPathsPropsOpt, subPathsKeyed, subPathsDeps,
      subPathsItemsField, subPathsIndexedOpt, subPathsIndexed, subPathsOptChild,
      SProps.ofList, emptyJsonSchema]

/-- C3 amended: for a compiled root whose non-empty `$id` has a registry
entry (as `NewRootJsonSchema` ensures by registering before scanning —
the entry is the compiled root itself unless the id was already taken),
every subschema the compiler's walk visits has an entry in that registry
entry's subschema index under its canonical path; `then`/`else` children
without a sibling `if` are not visited, and for a root with no `$id`
(empty root id) the scan records nothing — the registry is unchanged. -/
theorem C3_index_completeness (js : JsonSchema) (rootSchemaID : String) (pool : Pool)
    (hr : ¬rootSchemaID = "") (hpool : (poolFind pool rootSchemaID).isSome = true)
    (p : String) (hp : p ∈ walkedPaths js "")
    (js2 : JsonSchema) (path2 : String) (pool2 : Pool) :
    (entryFind (scanSchema js "" rootSchemaID pool) rootSchemaID p).isSome = true ∧
    scanSchema js2 path2 "" pool2 = pool2 :=
  ⟨scanSchema_covers js "" rootSchemaID pool p hr hpool hp,
   scanSchema_anon js2 path2 pool2⟩

/-- Witness for C3 amended: the one-child schema freshly registered under
root id "R", and an anonymous scan of the same schema. -/
theorem C3_index_completeness_witness :
    (entryFind (scanSchema anonPropsSchema "" "R" [("R", ⟨anonPropsSchema, []⟩)]) "R"
      "/properties/a").isSome = true ∧
    scanSchema anonPropsSchema "" "" poolAnon = poolAnon :=
  C3_index_completeness anonPropsSchema "R" [("R", ⟨anonPropsSchema, []⟩)] (by decide)
    (by decide) "/properties/a"
    (by
      simp [anonPropsSchema, walkedPaths, walkedPropsOpt, walkedKeyed, walkedDeps,
        walkedItemsField, walkedIndexedOpt, walkedIndexed, walkedOptChild, walkedIfPaths,
        SProps.ofList, emptyJsonSchema])
    anonPropsSchema "" poolAnon
